import Mathlib

/-!
Shallow embedding of the research-corpus pipeline scripts
(`Scripts/Research/build_manifest.py`, `extract_assets.py`,
`summarize_papers.py`, `publish_notion.py`, `research_common.py`)
together with theorems about the behaviour of the embedded code.

Modelling conventions:
* Python strings are Lean `String`s; `len` is the code-point count
  (`String.data.length`).
* Python `str.lower()` is modelled for the ASCII range, which covers the
  file names and keyword tokens the pipeline compares.
* `sha256_file` is modelled as the identity on a file's byte content
  (content-addressed identity: SHA-256 is treated as collision-free).
* External subprocesses (`run_command`) are oracles: a call either
  times out (`subprocess.run` then raises `TimeoutExpired`, which no
  caller catches) or returns an exit code plus stdout.
* Machine integers do not overflow in any code path modelled here, so
  sizes and counts are `Nat`/`Int`.
-/

namespace PipelineModel

/-- Python `str.lower()` restricted to ASCII letters (the pipeline only
lowercases ASCII file names and keyword tokens). -/
def asciiLowerChar (c : Char) : Char :=
  if 'A' ≤ c && c ≤ 'Z' then Char.ofNat (c.toNat + 32) else c

/-- `str.lower()` on a whole string. -/
def pyLower (s : String) : String := String.mk (s.data.map asciiLowerChar)

/-- ASCII whitespace, the characters matched by `\s` that occur in the
pipeline's inputs. -/
def isPySpace (c : Char) : Bool :=
  c == ' ' || c == '\t' || c == '\n' || c == '\r' ||
    c == Char.ofNat 11 || c == Char.ofNat 12

/-- Replace every whitespace run by a single `' '` (the substitution part
of `re.sub(r"\s+", " ", text)`). -/
def collapseWS : List Char → List Char
  | [] => []
  | c :: cs =>
    let rest := collapseWS cs
    if isPySpace c then
      match rest with
      | ' ' :: _ => rest
      | _ => ' ' :: rest
    else c :: rest

/-- Python `str.strip()` on a character list. -/
def stripChars (l : List Char) : List Char :=
  ((l.dropWhile isPySpace).reverse.dropWhile isPySpace).reverse

/-- `research_common.clean_whitespace`: collapse whitespace runs and strip. -/
def clean_whitespace (s : String) : String :=
  String.mk (stripChars (collapseWS s.data))

/-- Python `str.strip()`. -/
def pyStrip (s : String) : String := String.mk (stripChars s.data)

/-- Line-break characters recognised by Python `str.splitlines` that can
occur in the modelled inputs. -/
def isLineBreak (c : Char) : Bool :=
  c == '\n' || c == '\r' || c == Char.ofNat 11 || c == Char.ofNat 12

/-- Worker for `splitlines`: `cur` is the reversed current line. -/
def splitLinesGo : List Char → List Char → List (List Char)
  | cur, [] => if cur.isEmpty then [] else [cur.reverse]
  | cur, '\r' :: '\n' :: cs => cur.reverse :: splitLinesGo [] cs
  | cur, c :: cs =>
    if isLineBreak c then cur.reverse :: splitLinesGo [] cs
    else splitLinesGo (c :: cur) cs

/-- Python `str.splitlines()`. -/
def splitLines (s : String) : List String :=
  (splitLinesGo [] s.data).map String.mk

/-- Python `str.split(sep)` for a single-character separator: keeps empty
fields, `"".split(sep) == [""]`. -/
def splitOnChar (sep : Char) : List Char → List (List Char)
  | [] => [[]]
  | c :: cs =>
    if c = sep then [] :: splitOnChar sep cs
    else
      match splitOnChar sep cs with
      | g :: gs => (c :: g) :: gs
      | [] => [[c]]

/-- `research_common.split_pages_from_pdftotext`: split on form feed and
drop a trailing page that is pure whitespace. -/
def split_pages_from_pdftotext (full_text : String) : List String :=
  let pages := (splitOnChar (Char.ofNat 12) full_text.data).map String.mk
  match pages.getLast? with
  | some last => if pyStrip last = "" then pages.dropLast else pages
  | none => pages

/-- `needle.isPrefixOf hay` for char lists, spelled out so its equations
are convenient for the kernel. -/
def prefixAt : List Char → List Char → Bool
  | [], _ => true
  | _ :: _, [] => false
  | a :: as, b :: bs => a == b && prefixAt as bs

/-- Substring search: Python `needle in hay` (empty needle matches). -/
def hasSub (needle : List Char) : List Char → Bool
  | [] => needle.isEmpty
  | c :: cs => prefixAt needle (c :: cs) || hasSub needle cs

/-- Python `needle in hay` on strings. -/
def strHas (hay needle : String) : Bool := hasSub needle.data hay.data

/-- Python `hay.startswith(needle)`. -/
def strStarts (hay needle : String) : Bool := prefixAt needle.data hay.data

/-- Python string `<`: lexicographic comparison of code points. -/
def clLt : List Char → List Char → Bool
  | [], [] => false
  | [], _ :: _ => true
  | _ :: _, [] => false
  | a :: as, b :: bs =>
    if a.toNat < b.toNat then true
    else if b.toNat < a.toNat then false
    else clLt as bs

/-- Python string `<` on strings. -/
def pyStrLt (a b : String) : Bool := clLt a.data b.data

/-- Python string `<=` on strings. -/
def pyStrLe (a b : String) : Bool := !(pyStrLt b a)

/-- Python `str[:n]` (truncation, code-point based). -/
def pyTake (s : String) (n : Nat) : String := String.mk (s.data.take n)

/-- Stable ordered insertion: `x` goes in front of the first element `y`
with `le x y`, so elements comparing equal keep their input order. -/
def insSorted (le : α → α → Bool) (x : α) : List α → List α
  | [] => [x]
  | y :: ys => if le x y then x :: y :: ys else y :: insSorted le x ys

/-- Stable insertion sort; models Python's stable `sorted` for a total
preorder `le` (Python `sorted` is characterised up to extensionality by
being a stable sort). -/
def sortByB (le : α → α → Bool) (l : List α) : List α :=
  l.foldr (insSorted le) []

theorem insSorted_perm (le : α → α → Bool) (x : α) (l : List α) :
    List.Perm (insSorted le x l) (x :: l) := by
  induction l with
  | nil => simp [insSorted]
  | cons y ys ih =>
    by_cases h : le x y
    · simp [insSorted, h]
    · simp only [insSorted, h, if_neg, Bool.false_eq_true, not_false_eq_true, if_false]
      exact ((ih.cons y).trans (List.Perm.swap x y ys))

theorem sortByB_perm (le : α → α → Bool) (l : List α) :
    List.Perm (sortByB le l) l := by
  induction l with
  | nil => simp [sortByB]
  | cons x xs ih =>
    exact (insSorted_perm le x (sortByB le xs)).trans (ih.cons x)

theorem sortByB_length (le : α → α → Bool) (l : List α) :
    (sortByB le l).length = l.length :=
  (sortByB_perm le l).length_eq

theorem mem_sortByB (le : α → α → Bool) (l : List α) (a : α) :
    a ∈ sortByB le l ↔ a ∈ l :=
  (sortByB_perm le l).mem_iff

/-- Head of an ordered insertion is either the new element or the old head. -/
theorem insSorted_head (le : α → α → Bool) (x : α) (y : α) (ys : List α) :
    insSorted le x (y :: ys) = x :: y :: ys ∨
      ∃ t, insSorted le x (y :: ys) = y :: t ∧
        (t = insSorted le x ys) := by
  by_cases h : le x y
  · left; simp [insSorted, h]
  · right; exact ⟨insSorted le x ys, by simp [insSorted, h], rfl⟩

/-- Insertion into a `≤`-chain stays a chain, assuming `le` total. -/
theorem insSorted_chain (le : α → α → Bool)
    (total : ∀ a b, le a b = true ∨ le b a = true) (x : α) :
    ∀ l : List α, List.Chain' (fun a b => le a b = true) l →
      List.Chain' (fun a b => le a b = true) (insSorted le x l) := by
  intro l
  induction l with
  | nil => intro _; simp [insSorted]
  | cons y ys ih =>
    intro hch
    by_cases h : le x y
    · have heq : insSorted le x (y :: ys) = x :: y :: ys := by
        simp [insSorted, h]
      rw [heq]
      exact List.chain'_cons.mpr ⟨h, hch⟩
    · have hyx : le y x = true := by
        rcases total x y with h' | h'
        · exact absurd h' h
        · exact h'
      have hys : List.Chain' (fun a b => le a b = true) ys := hch.tail
      have htail := ih hys
      simp only [insSorted, h, Bool.false_eq_true, if_false]
      cases ys with
      | nil => simpa [insSorted] using hyx
      | cons z zs =>
        have hyz : le y z = true := List.chain'_cons.mp hch |>.1
        rcases insSorted_head le x z zs with heq | ⟨t, heq, _⟩
        · rw [heq] at htail ⊢
          exact List.chain'_cons.mpr ⟨hyx, htail⟩
        · rw [heq] at htail ⊢
          exact List.chain'_cons.mpr ⟨hyz, htail⟩

/-- The output of the stable sort is sorted (adjacent-pairs form). -/
theorem sortByB_chain (le : α → α → Bool)
    (total : ∀ a b, le a b = true ∨ le b a = true) (l : List α) :
    List.Chain' (fun a b => le a b = true) (sortByB le l) := by
  induction l with
  | nil => simp [sortByB]
  | cons x xs ih => exact insSorted_chain le total x _ ih

/-- Sorting commutes with mapping when the comparison factors through the
map (used to show bucket ordering only depends on names and hashes). -/
theorem insSorted_map (le : α → α → Bool) (le' : β → β → Bool) (f : α → β)
    (hf : ∀ a b, le a b = le' (f a) (f b)) (x : α) (l : List α) :
    (insSorted le x l).map f = insSorted le' (f x) (l.map f) := by
  induction l with
  | nil => simp [insSorted]
  | cons y ys ih =>
    by_cases h : le x y
    · have h' : le' (f x) (f y) = true := by rw [← hf]; exact h
      simp [insSorted, h, h']
    · have h' : ¬ le' (f x) (f y) = true := by rw [← hf]; exact h
      simp [insSorted, h, h', ih]

theorem sortByB_map (le : α → α → Bool) (le' : β → β → Bool) (f : α → β)
    (hf : ∀ a b, le a b = le' (f a) (f b)) (l : List α) :
    (sortByB le l).map f = sortByB le' (l.map f) := by
  induction l with
  | nil => simp [sortByB]
  | cons x xs ih =>
    show (insSorted le x (sortByB le xs)).map f =
      insSorted le' (f x) (sortByB le' (xs.map f))
    rw [insSorted_map le le' f hf, ih]

/-- 1-based enumeration, modelling Python `enumerate(xs, start=n)`. -/
def enumFrom (n : Nat) : List α → List (Nat × α)
  | [] => []
  | x :: xs => (n, x) :: enumFrom (n + 1) xs

theorem enumFrom_map_snd (n : Nat) (l : List α) :
    (enumFrom n l).map Prod.snd = l := by
  induction l generalizing n with
  | nil => rfl
  | cons x xs ih => simp [enumFrom, ih]

theorem enumFrom_map_fst (n : Nat) (l : List α) :
    (enumFrom n l).map Prod.fst = List.range' n l.length := by
  induction l generalizing n with
  | nil => rfl
  | cons x xs ih => simp [enumFrom, ih, List.range']

/-- Worker for `keyOrder`: `seen` is the set of keys already emitted. -/
def keyOrderGo [DecidableEq α] (seen : List α) : List α → List α
  | [] => []
  | x :: xs =>
    if x ∈ seen then keyOrderGo seen xs
    else x :: keyOrderGo (seen ++ [x]) xs

/-- First-occurrence deduplication: the iteration order of the keys of a
Python dict built by repeated `setdefault`. -/
def keyOrder [DecidableEq α] (l : List α) : List α := keyOrderGo [] l

theorem mem_keyOrderGo [DecidableEq α] (l : List α) :
    ∀ (seen : List α) (a : α), a ∈ keyOrderGo seen l ↔ a ∈ l ∧ a ∉ seen := by
  induction l with
  | nil => intro seen a; simp [keyOrderGo]
  | cons x xs ih =>
    intro seen a
    by_cases hx : x ∈ seen
    · rw [keyOrderGo, if_pos hx, ih]
      constructor
      · rintro ⟨ha, hs⟩
        exact ⟨List.mem_cons_of_mem x ha, hs⟩
      · rintro ⟨ha, hs⟩
        rcases List.mem_cons.mp ha with rfl | ha'
        · exact absurd hx hs
        · exact ⟨ha', hs⟩
    · rw [keyOrderGo, if_neg hx]
      by_cases hax : a = x
      · subst hax; simp [hx]
      · simp only [List.mem_cons, hax, false_or]
        rw [ih]
        simp only [List.mem_append, List.mem_singleton, hax, or_false]

theorem mem_keyOrder [DecidableEq α] (l : List α) (a : α) :
    a ∈ keyOrder l ↔ a ∈ l := by
  rw [keyOrder, mem_keyOrderGo]
  simp

theorem keyOrderGo_nodup [DecidableEq α] (l : List α) :
    ∀ seen : List α, (keyOrderGo seen l).Nodup := by
  induction l with
  | nil => intro seen; simp [keyOrderGo]
  | cons x xs ih =>
    intro seen
    by_cases hx : x ∈ seen
    · rw [keyOrderGo, if_pos hx]; exact ih seen
    · rw [keyOrderGo, if_neg hx]
      refine List.nodup_cons.mpr ⟨?_, ih (seen ++ [x])⟩
      rw [mem_keyOrderGo]
      simp

theorem keyOrder_nodup [DecidableEq α] (l : List α) :
    (keyOrder l).Nodup := keyOrderGo_nodup l []

/-- `research_common.chunked` slice loop: `items[idx : idx+size]` for
`idx = 0, size, 2*size, …`. -/
def chunksOf (size : Nat) (l : List α) : List (List α) :=
  match l, size with
  | [], _ => []
  | _ :: _, 0 => []
  | x :: xs, n + 1 =>
    (x :: xs).take (n + 1) :: chunksOf (n + 1) ((x :: xs).drop (n + 1))
termination_by l.length
decreasing_by
  simp only [List.drop_succ_cons, List.length_cons, List.length_drop]
  omega

/-- `research_common.chunked`: raises `ValueError` on a nonpositive size
(sizes are nonnegative here, so only zero), else yields the slices. -/
def chunked (items : List α) (size : Nat) : Except String (List (List α)) :=
  if size = 0 then Except.error "chunk size must be > 0"
  else Except.ok (chunksOf size items)

theorem chunksOf_nil (size : Nat) : chunksOf size ([] : List α) = [] := by
  cases size <;> simp [chunksOf]

theorem chunksOf_zero (l : List α) : chunksOf 0 l = [] := by
  cases l <;> simp [chunksOf]

theorem chunksOf_pos (size : Nat) (l : List α) (hs : size ≠ 0) (hl : l ≠ []) :
    chunksOf size l = l.take size :: chunksOf size (l.drop size) := by
  cases l with
  | nil => exact absurd rfl hl
  | cons x xs =>
    cases size with
    | zero => exact absurd rfl hs
    | succ n => rw [chunksOf]

/-- The chchunk lengths: `⌊N/size⌋` full chunks then the `N mod size`
remainder when it is nonzero. -/
theorem chunksOf_map_length (size : Nat) (hs : size ≠ 0) (l : List α) :
    (chunksOf size l).map List.length =
      List.replicate (l.length / size) size ++
        (if l.length % size = 0 then [] else [l.length % size]) := by
  generalize hn : l.length = n
  induction n using Nat.strong_induction_on generalizing l with
  | _ n ih =>
    cases l with
    | nil =>
      simp at hn
      subst hn
      simp [chunksOf_nil, Nat.zero_div, Nat.zero_mod]
    | cons x xs =>
      rw [chunksOf_pos size (x :: xs) hs (by simp)]
      by_cases hle : n < size
      · have htake : ((x :: xs).take size).length = n := by
          rw [List.length_take, hn]; omega
        have hdrop : (x :: xs).drop size = [] := by
          apply List.drop_eq_nil_of_le
          rw [hn]; omega
        have hdiv : n / size = 0 := Nat.div_eq_of_lt hle
        have hmod : n % size = n := Nat.mod_eq_of_lt hle
        have hnz : n ≠ 0 := by rw [← hn]; simp
        simp [hdrop, chunksOf_nil, htake, hdiv, hmod, hnz]
      · push_neg at hle
        have hlen' : ((x :: xs).drop size).length = n - size := by
          rw [List.length_drop, hn]
        have hlt : n - size < n := by
          have : 0 < size := Nat.pos_of_ne_zero hs
          omega
        have := ih (n - size) hlt ((x :: xs).drop size) hlen'
        rw [List.map_cons, this]
        have htake : ((x :: xs).take size).length = size := by
          rw [List.length_take, hn]; omega
        have hdiv : n / size = (n - size) / size + 1 := by
          rw [Nat.div_eq_sub_div (Nat.pos_of_ne_zero hs) hle]
        have hmod : n % size = (n - size) % size := by
          rw [Nat.mod_eq_sub_mod hle]
        rw [htake, hdiv, hmod]
        simp [List.replicate_succ]

/-- The chunks concatenate back to the input (order preserved). -/
theorem chunksOf_flatten (size : Nat) (hs : size ≠ 0) (l : List α) :
    (chunksOf size l).flatten = l := by
  generalize hn : l.length = n
  induction n using Nat.strong_induction_on generalizing l with
  | _ n ih =>
    cases l with
    | nil => simp [chunksOf_nil]
    | cons x xs =>
      rw [chunksOf_pos size (x :: xs) hs (by simp)]
      by_cases hle : n < size
      · have hdrop : (x :: xs).drop size = [] := by
          apply List.drop_eq_nil_of_le
          rw [hn]; omega
        have htake : (x :: xs).take size = x :: xs := by
          apply List.take_of_length_le
          rw [hn]; omega
        simp [hdrop, chunksOf_nil, htake]
      · push_neg at hle
        have hlen' : ((x :: xs).drop size).length = n - size := by
          rw [List.length_drop, hn]
        have hlt : n - size < n := by
          have : 0 < size := Nat.pos_of_ne_zero hs
          omega
        have := ih (n - size) hlt ((x :: xs).drop size) hlen'
        simp [this]

/-! ### `extract_assets.should_keep_image` -/

/-- One parsed row of `pdfimages -list` output, with the fields
`should_keep_image` reads (`int(...)`-converted in the source). -/
structure ImgRow where
  page : Int
  num : Int
  type : String
  width : Int
  height : Int
deriving Repr, DecidableEq

/-- `if a <= b then a else b` (kernel-reducible `min` on `Int`). -/
def intMin (a b : Int) : Int := if a ≤ b then a else b

/-- `if a <= b then b else a` (kernel-reducible `max` on `Int`). -/
def intMax (a b : Int) : Int := if a ≤ b then b else a

/-- `extract_assets.should_keep_image`: the keep/reject decision with its
reason code.  The aspect-ratio test `max/float(min) > 6.0` is modelled as
the exact integer comparison `6 * min < max`: at that branch both
dimensions are at least 160 (the earlier guards returned otherwise), so
the positive double-precision quotient compares to `6.0` exactly as the
exact quotient does, and `max/min > 6 ↔ 6*min < max`. -/
def should_keep_image (row : ImgRow) (file_size : Nat) : Bool × String :=
  let width := row.width
  let height := row.height
  let area := width * height
  let image_type := pyLower row.type
  let page := row.page
  if image_type = "mask" ∨ image_type = "smask" ∨ image_type = "stencil" then
    (false, "mask_or_stencil")
  else if width < 160 ∨ height < 160 then
    (false, "too_small_dimensions")
  else if area < 60000 then
    (false, "too_small_area")
  else if intMin width height = 0 then
    (false, "invalid_dimensions")
  else if 6 * intMin width height < intMax width height then
    (false, "extreme_aspect_ratio")
  else if file_size < 8192 then
    (false, "too_small_file")
  else if page ≤ 2 ∧ width ≤ 420 ∧ height ≤ 420 ∧ file_size < 50000 then
    (false, "likely_decorative_frontmatter")
  else
    (true, "kept")

/-! ### `extract_assets.extract_equation_candidates` -/

/-- The character class of `EQUATION_SYMBOLS`:
`[∂∇ΔωψνηΣ]`. -/
def isEquationSymbol (c : Char) : Bool :=
  c.toNat = 0x2202 || c.toNat = 0x2207 || c.toNat = 0x0394 ||
    c.toNat = 0x03c9 || c.toNat = 0x03c8 || c.toNat = 0x03bd ||
    c.toNat = 0x03b7 || c.toNat = 0x03a3

/-- `re.search(r"\(\d+(\.\d+)?\)$", line)` for a line without newlines
(equation lines are whitespace-collapsed first): the line ends in
`(<number>)` with an optional fractional part. -/
def endsWithEqNumber (line : String) : Bool :=
  match line.data.reverse with
  | ')' :: t =>
    let d1 := t.takeWhile Char.isDigit
    let t1 := t.dropWhile Char.isDigit
    if d1.isEmpty then false
    else
      match t1 with
      | '(' :: _ => true
      | '.' :: t2 =>
        let d2 := t2.takeWhile Char.isDigit
        let t3 := t2.dropWhile Char.isDigit
        if d2.isEmpty then false
        else
          match t3 with
          | '(' :: _ => true
          | _ => false
      | _ => false
  | _ => false

/-- The derivative/operator keyword list of the score's first rule. -/
def operatorKeywords : List String :=
  ["d/dt", "partial", "nabla", "laplac", "jacobian", "cfl", "reynolds"]

/-- The physics symbol token list of the score's second rule. -/
def physicsTokens : List String :=
  ["omega", "psi", "eta", "nu", "u", "v", "h"]

/-- The score assigned to a candidate line (the `score` accumulation in
`extract_equation_candidates`). -/
def equationLineScore (line : String) : Nat :=
  let lower := pyLower line
  (if operatorKeywords.any (fun token => strHas lower token) then 2 else 0) +
  (if physicsTokens.any (fun token => strHas lower token) then 1 else 0) +
  (if endsWithEqNumber line then 2 else 0) +
  (if line.data.any isEquationSymbol then 2 else 0) +
  (if line.data.any (fun c => c == '+' || c == '-' || c == '*' || c == '/')
    then 1 else 0)

/-- An equation candidate record: the cleaned line, its 1-based page
number and its score. -/
structure EqCand where
  equation : String
  page : Nat
  score : Nat
deriving Repr, DecidableEq

/-- Whitespace-collapsed, case-folded normalisation used for duplicate
suppression (`re.sub(r"\s+", "", line.lower())`). -/
def normNoWS (s : String) : String :=
  String.mk ((pyLower s).data.filter (fun c => !(isPySpace c)))

/-- Candidate collection for the lines of one page: `seen` accumulates the
normalised lines already kept; returns the extended `(candidates, seen)`. -/
def collectPageCandidates (page_idx : Nat) (seen : List String)
    (acc : List EqCand) : List String → List EqCand × List String
  | [] => (acc, seen)
  | raw_line :: rest =>
    let line := clean_whitespace raw_line
    if line = "" ∨ ¬ strHas line "=" then
      collectPageCandidates page_idx seen acc rest
    else if line.data.length < 8 ∨ 220 < line.data.length then
      collectPageCandidates page_idx seen acc rest
    else
      let score := equationLineScore line
      if score < 2 then
        collectPageCandidates page_idx seen acc rest
      else
        let normalized := normNoWS line
        if normalized ∈ seen then
          collectPageCandidates page_idx seen acc rest
        else
          collectPageCandidates page_idx (seen ++ [normalized])
            (acc ++ [⟨line, page_idx, score⟩]) rest

/-- The outer page loop of `extract_equation_candidates`. -/
def collectAllCandidates (seen : List String) (acc : List EqCand) :
    List (Nat × String) → List EqCand
  | [] => acc
  | (page_idx, page_text) :: rest =>
    let (acc', seen') :=
      collectPageCandidates page_idx seen acc (splitLines page_text)
    collectAllCandidates seen' acc' rest

/-- The sort key comparison `(-score, page)` of the final
`candidates.sort(...)` (ascending on the key tuple, hence descending
score then ascending page; stable). -/
def eqCandLe (a b : EqCand) : Bool :=
  (b.score < a.score) || (a.score == b.score && a.page ≤ b.page)

/-- `extract_assets.extract_equation_candidates`. -/
def extract_equation_candidates (pages : List String) (limit : Nat := 12) :
    List EqCand :=
  (sortByB eqCandLe (collectAllCandidates [] [] (enumFrom 1 pages))).take limit

/-! ### `build_manifest.py` -/

/-- A source PDF file: name plus byte content.  `sha256_file` is modelled
as the identity on the content (SHA-256 is treated as collision-free, so
the digest is a faithful stand-in for the bytes). -/
structure PFile where
  name : String
  content : String
deriving Repr, DecidableEq

/-- Outcome of one `run_command` subprocess call: either the command ran
to completion with an exit code and stdout, or `subprocess.run` hit the
timeout and raised `TimeoutExpired` (which `run_command` does not catch). -/
inductive Res where
  | timeout
  | done (code : Int) (stdout : String)
deriving Repr, DecidableEq

/-- Exceptions that can escape the modelled scripts. -/
inductive PyErr where
  | timeoutExpired
  | systemExit
  | osError
deriving Repr, DecidableEq

/-- The external-tool behaviour for one manifest source file. -/
structure FileWorld where
  /-- `pdfinfo <pdf>` -/
  pdfinfo : Res
  /-- `pdftotext -f 1 -l 1 <pdf> -` on the direct path -/
  ptDirect : Res
  /-- whether `shutil.copy2` to the staging path succeeds -/
  copyOk : Bool
  /-- `pdftotext -f 1 -l 1 <staged> -` on the staged copy -/
  ptStaged : Res
deriving Repr

/-- Decimal digits to a number. -/
def natOfDigits (ds : List Char) : Nat :=
  ds.foldl (fun n c => n * 10 + (c.toNat - 48)) 0

/-- Helper of `parse_pdfinfo_pages`: try `Pages:\s*(\d+)` at one position. -/
def pagesMatchAt (l : List Char) : Option Nat :=
  if prefixAt "Pages:".data l then
    let t := (l.drop 6).dropWhile isPySpace
    let ds := t.takeWhile Char.isDigit
    if ds.isEmpty then none else some (natOfDigits ds)
  else none

/-- Worker: scan for a line start (string start or after `'\n'`, the
positions `^` matches with `re.MULTILINE`) where the pattern matches. -/
def pagesSearchGo : List Char → Bool → Option Nat
  | [], _ => none
  | c :: cs, atStart =>
    match if atStart then pagesMatchAt (c :: cs) else none with
    | some n => some n
    | none => pagesSearchGo cs (c = '\n')

/-- `research_common.parse_pdfinfo_pages`:
`re.search(r"^Pages:\s*(\d+)", stdout, re.MULTILINE)`. -/
def parse_pdfinfo_pages (stdout : String) : Option Nat :=
  pagesSearchGo stdout.data true

/-- `pathlib` stem: the final component without its suffix (a dot that is
neither leading nor trailing starts the suffix). -/
def pyStem (name : String) : String :=
  let cs := name.data
  let k := (cs.reverse.takeWhile (fun c => c ≠ '.')).length
  if k = cs.length then name
  else
    let i := cs.length - k - 1
    if i = 0 ∨ i = cs.length - 1 then name
    else String.mk (cs.take i)

/-- `pdf_path.stem.encode("ascii", "ignore").decode("ascii") or "paper"`. -/
def probeStageBase (name : String) : String :=
  let s := String.mk ((pyStem name).data.filter (fun c => c.toNat < 128))
  if s = "" then "paper" else s

/-- The `while stage_path.exists()` collision loop of
`probe_extractability`; fuel `existing.length + 1` suffices because the
generated names are pairwise distinct. -/
def stageNameLoop : Nat → String → Nat → List String → String
  | 0, cur, _, _ => cur
  | fuel + 1, cur, idx, existing =>
    if cur ∈ existing then
      stageNameLoop fuel (pyStem cur ++ "_" ++ toString idx ++ ".pdf")
        (idx + 1) existing
    else cur

/-- The fresh staging file name chosen by `probe_extractability` given the
staging files already present. -/
def probeStageName (name : String) (existing : List String) : String :=
  stageNameLoop (existing.length + 1) (pyStem (probeStageBase name) ++ ".pdf")
    1 existing

/-- Status and note returned by `probe_extractability`. -/
structure ProbeResult where
  status : String
  note : String
deriving Repr, DecidableEq

/-- `build_manifest.probe_extractability`.  Returns the probe result (or
the escaping `TimeoutExpired`) together with the staging directory's file
list after the call. -/
def probe_extractability (fw : FileWorld) (name : String)
    (staged : List String) : Except PyErr ProbeResult × List String :=
  match fw.ptDirect with
  | .timeout => (.error .timeoutExpired, staged)
  | .done code stdout =>
    if code = 0 ∧ pyStrip stdout ≠ "" then
      (.ok ⟨"direct_ok", "pdftotext direct path succeeded"⟩, staged)
    else
      let stageName := probeStageName name staged
      if ¬ fw.copyOk then
        (.ok ⟨"failed", "direct failed; staging copy failed: <exc>"⟩, staged)
      else
        let staged' := staged ++ [stageName]
        match fw.ptStaged with
        | .timeout => (.error .timeoutExpired, staged')
        | .done c2 out2 =>
          if c2 = 0 ∧ pyStrip out2 ≠ "" then
            (.ok ⟨"requires_staging",
              "pdftotext succeeds only with ASCII staging path"⟩, staged')
          else
            (.ok ⟨"failed", "pdftotext failed on direct and staged path"⟩,
              staged')

/-- One per-file record of `manifest_all` (path resolution is modelled as
plain string concatenation, which is injective on the names concerned). -/
structure PRecord where
  file_name : String
  absolute_path : String
  relative_path : String
  sha256 : String
  size_bytes : Nat
  pages : Option Nat
  extractability_status : String
  extractability_note : String
deriving Repr, DecidableEq

/-- The per-file body of the record loop in `build_manifest`. -/
def processFile (fw : FileWorld) (papersDir : String) (f : PFile)
    (staged : List String) : Except PyErr PRecord × List String :=
  let size := f.content.data.length
  let sha := f.content
  match fw.pdfinfo with
  | .timeout => (.error .timeoutExpired, staged)
  | .done icode iout =>
    let pages := if icode = 0 then parse_pdfinfo_pages iout else none
    match probe_extractability fw f.name staged with
    | (.error e, staged') => (.error e, staged')
    | (.ok pr, staged') =>
      (.ok { file_name := f.name
             absolute_path := papersDir ++ "/" ++ f.name
             relative_path := papersDir ++ "/" ++ f.name
             sha256 := sha
             size_bytes := size
             pages := pages
             extractability_status := pr.status
             extractability_note := pr.note }, staged')

/-- The record loop of `build_manifest` over the sorted file list. -/
def buildRecords (w : String → FileWorld) (papersDir : String) :
    List PFile → List String → Except PyErr (List PRecord) × List String
  | [], staged => (.ok [], staged)
  | f :: rest, staged =>
    match processFile (w f.name) papersDir f staged with
    | (.error e, staged') => (.error e, staged')
    | (.ok r, staged') =>
      match buildRecords w papersDir rest staged' with
      | (.error e, staged'') => (.error e, staged'')
      | (.ok rs, staged'') => (.ok (r :: rs), staged'')

/-- `sorted(papers_dir.glob("*.pdf"), key=lambda p: p.name.lower())`. -/
def fileNameLe (a b : PFile) : Bool := pyStrLe (pyLower a.name) (pyLower b.name)

/-- `groups.setdefault(sha256, []).append(record)`: the bucket of one
hash, in record order. -/
def groupFor (records : List PRecord) (h : String) : List PRecord :=
  records.filter (fun r => r.sha256 == h)

/-- The hash keys in dict insertion order (first occurrence). -/
def groupKeys (records : List PRecord) : List String :=
  keyOrder (records.map (·.sha256))

/-- `groups.items()` in dict order. -/
def groupsList (records : List PRecord) : List (String × List PRecord) :=
  (groupKeys records).map (fun h => (h, groupFor records h))

/-- The bucket sort key of `build_manifest` line 86:
`sorted(x["file_name"] for x in kv[1])[0].lower()` — the (case-sensitive)
minimum file name of the bucket, lowercased. -/
def bucketKey (names : List String) : String :=
  pyLower (((sortByB pyStrLe names).headD ""))

/-- Bucket comparison used for `sorted(groups.items(), key=...)`. -/
def bucketLe (a b : String × List PRecord) : Bool :=
  pyStrLe (bucketKey (a.2.map (·.file_name))) (bucketKey (b.2.map (·.file_name)))

/-- `sorted(group_records, key=lambda r: str(r["file_name"]).lower())`. -/
def recNameLe (a b : PRecord) : Bool :=
  pyStrLe (pyLower a.file_name) (pyLower b.file_name)

/-- `f"{idx:03d}"`. -/
def pad3 (n : Nat) : String :=
  if n < 10 then "00" ++ toString n
  else if n < 100 then "0" ++ toString n
  else toString n

/-- One unique-paper record of `manifest_unique`; `paper_seq` is the
`enumerate(..., start=1)` index that `paper_id` renders. -/
structure URecord where
  paper_seq : Nat
  paper_id : String
  sha256 : String
  canonical_file_name : String
  canonical_absolute_path : String
  canonical_relative_path : String
  size_bytes : Nat
  pages : Option Nat
  extractability_status : String
  extractability_note : String
  alias_file_names : List String
  duplicate_count : Nat
deriving Repr, DecidableEq

/-- A placeholder record: `sorted_group[0]` on an empty bucket would
raise `IndexError`; buckets coming from `groupsList` are never empty. -/
def dummyPRecord : PRecord :=
  ⟨"", "", "", "", 0, none, "", ""⟩

/-- The body of the `for idx, (sha256, group_records) in enumerate(...)`
loop building one unique record.  `duplicate_count = max(0, len-1)` is
truncated `Nat` subtraction. -/
def mkUnique (it : Nat × (String × List PRecord)) : URecord :=
  let idx := it.1
  let sha := it.2.1
  let sorted_group := sortByB recNameLe it.2.2
  let canonical := sorted_group.headD dummyPRecord
  let aliases := sorted_group.map (·.file_name)
  { paper_seq := idx
    paper_id := "paper_" ++ pad3 idx ++ "_" ++ pyTake sha 8
    sha256 := sha
    canonical_file_name := canonical.file_name
    canonical_absolute_path := canonical.absolute_path
    canonical_relative_path := canonical.relative_path
    size_bytes := canonical.size_bytes
    pages := canonical.pages
    extractability_status := canonical.extractability_status
    extractability_note := canonical.extractability_note
    alias_file_names := aliases
    duplicate_count := aliases.length - 1 }

/-- The `manifest_all` JSON object. -/
structure ManifestAll where
  generated_at_utc : String
  papers_dir : String
  total_files : Nat
  unique_files : Nat
  duplicate_groups : Nat
  records : List PRecord
  duplicate_groups_detail : List (List String)
deriving Repr, DecidableEq

/-- The `manifest_unique` JSON object. -/
structure ManifestUnique where
  generated_at_utc : String
  source_total_files : Nat
  source_unique_files : Nat
  papers : List URecord
deriving Repr, DecidableEq

/-- Both manifest artifacts. -/
structure BuildOut where
  all : ManifestAll
  unique : ManifestUnique
deriving Repr, DecidableEq

/-- The deduplication-and-numbering part of `build_manifest`
(lines 79–124), a pure function of the record list. -/
def manifestCore (now papersDir : String) (records : List PRecord) :
    BuildOut :=
  let group_items := sortByB bucketLe (groupsList records)
  let unique_records := (enumFrom 1 group_items).map mkUnique
  let duplicate_groups :=
    group_items.map (fun kv => (sortByB recNameLe kv.2).map (·.file_name))
  { all :=
    { generated_at_utc := now
      papers_dir := papersDir
      total_files := records.length
      unique_files := unique_records.length
      duplicate_groups := duplicate_groups.countP (fun g => 1 < g.length)
      records := records
      duplicate_groups_detail := duplicate_groups }
    unique :=
    { generated_at_utc := now
      source_total_files := records.length
      source_unique_files := unique_records.length
      papers := unique_records } }

/-- On-disk side effects of one `build_manifest` run. -/
structure ManifestFS where
  tempProbeDirExists : Bool
  tempProbeFiles : List String
  manifestAllWritten : Bool
  manifestUniqueWritten : Bool
deriving Repr, DecidableEq

/-- `build_manifest.build_manifest`: probes every file, groups by hash,
writes both manifests and removes the staging probe directory.  A
`TimeoutExpired` raised by any probe escapes the function, skipping the
cleanup. -/
def build_manifest (w : String → FileWorld) (now papersDir : String)
    (files : List PFile) : Except PyErr BuildOut × ManifestFS :=
  match buildRecords w papersDir (sortByB fileNameLe files) [] with
  | (.error e, staged) =>
    (.error e,
      { tempProbeDirExists := true, tempProbeFiles := staged
        manifestAllWritten := false, manifestUniqueWritten := false })
  | (.ok records, _staged) =>
    (.ok (manifestCore now papersDir records),
      { tempProbeDirExists := false, tempProbeFiles := []
        manifestAllWritten := true, manifestUniqueWritten := true })

/-- On-disk side effects of `build_manifest.main`. -/
structure MainFS where
  outDirCreated : Bool
  inner : ManifestFS
deriving Repr, DecidableEq

/-- `build_manifest.main`: `ensure_dir(args.out_dir.resolve())` runs
first, then the papers-directory existence check (raising `SystemExit`),
then `build_manifest`. -/
def build_manifest_main (papersDirExists : Bool) (w : String → FileWorld)
    (now papersDir : String) (files : List PFile) :
    Except PyErr BuildOut × MainFS :=
  let emptyFS : ManifestFS :=
    { tempProbeDirExists := false, tempProbeFiles := []
      manifestAllWritten := false, manifestUniqueWritten := false }
  if ¬ papersDirExists then
    (.error .systemExit, { outDirCreated := true, inner := emptyFS })
  else
    let (res, fs) := build_manifest w now papersDir files
    (res, { outDirCreated := true, inner := fs })

/-! ### Order facts about the Python string comparison -/

theorem clLt_trans : ∀ (a b c : List Char), clLt a b = true →
    clLt b c = true → clLt a c = true := by
  intro a
  induction a with
  | nil =>
    intro b c hab hbc
    cases b with
    | nil => simp [clLt] at hab
    | cons y ys =>
      cases c with
      | nil => simp [clLt] at hbc
      | cons z zs => simp [clLt]
  | cons x xs ih =>
    intro b c hab hbc
    cases b with
    | nil => simp [clLt] at hab
    | cons y ys =>
      cases c with
      | nil => simp [clLt] at hbc
      | cons z zs =>
        simp only [clLt] at hab hbc ⊢
        by_cases hxy : x.toNat < y.toNat <;>
          by_cases hyx : y.toNat < x.toNat <;>
          by_cases hyz : y.toNat < z.toNat <;>
          by_cases hzy : z.toNat < y.toNat <;>
          by_cases hxz : x.toNat < z.toNat <;>
          by_cases hzx : z.toNat < x.toNat <;>
          simp_all <;>
          first
          | omega
          | (exact ih ys zs hab hbc)
          | (exact Or.inr (ih ys zs hab hbc))

theorem clLt_asymm : ∀ (a b : List Char), clLt a b = true →
    clLt b a = false := by
  intro a
  induction a with
  | nil =>
    intro b hab
    cases b with
    | nil => simp [clLt] at hab
    | cons y ys => simp [clLt]
  | cons x xs ih =>
    intro b hab
    cases b with
    | nil => simp [clLt] at hab
    | cons y ys =>
      simp only [clLt] at hab ⊢
      by_cases hxy : x.toNat < y.toNat
      · have hyx : ¬ y.toNat < x.toNat := by omega
        simp [hxy, hyx]
      · by_cases hyx : y.toNat < x.toNat
        · simp [hxy, hyx] at hab
        · simp only [if_neg hxy, if_neg hyx] at hab
          simp only [if_neg hyx, if_neg hxy]
          exact ih ys hab

theorem clLt_conn : ∀ (a b : List Char), clLt a b = false →
    clLt b a = false → a = b := by
  intro a
  induction a with
  | nil =>
    intro b hab _
    cases b with
    | nil => rfl
    | cons y ys => simp [clLt] at hab
  | cons x xs ih =>
    intro b hab hba
    cases b with
    | nil => simp [clLt] at hba
    | cons y ys =>
      simp only [clLt] at hab hba
      by_cases hxy : x.toNat < y.toNat <;> by_cases hyx : y.toNat < x.toNat <;>
        simp_all
      have hxs := ih ys hab hba
      have hn : x.toNat = y.toNat := by omega
      have hchar : x = y := Char.ext (UInt32.toNat.inj hn)
      rw [hchar, hxs]
      exact ⟨rfl, rfl⟩

/-- `pyStrLe` as a relation, for the order-theoretic instances. -/
def strLeP (a b : String) : Prop := pyStrLe a b = true

theorem pyStrLe_total (a b : String) :
    pyStrLe a b = true ∨ pyStrLe b a = true := by
  unfold pyStrLe pyStrLt
  by_cases h : clLt b.data a.data = true
  · right
    rw [clLt_asymm _ _ h]
    rfl
  · left
    rw [Bool.not_eq_true] at h
    rw [h]
    rfl

theorem pyStrLe_trans (a b c : String) (hab : pyStrLe a b = true)
    (hbc : pyStrLe b c = true) : pyStrLe a c = true := by
  unfold pyStrLe pyStrLt at hab hbc ⊢
  rw [Bool.not_eq_true'] at hab hbc ⊢
  cases hx : clLt c.data a.data with
  | false => rfl
  | true =>
    exfalso
    rcases Bool.eq_false_or_eq_true (clLt b.data c.data) with h2 | h2
    · have h3 := clLt_trans b.data c.data a.data h2 hx
      simp [hab] at h3
    · have heq := clLt_conn b.data c.data h2 hbc
      rw [← heq] at hx
      simp [hab] at hx

theorem pyStrLe_antisymm (a b : String) (hab : pyStrLe a b = true)
    (hba : pyStrLe b a = true) : a = b := by
  unfold pyStrLe pyStrLt at hab hba
  rw [Bool.not_eq_true'] at hab hba
  have h := clLt_conn a.data b.data hba hab
  cases a
  cases b
  simp_all

instance : IsTrans String strLeP := ⟨fun a b c => pyStrLe_trans a b c⟩

instance : IsAntisymm String strLeP := ⟨fun a b => pyStrLe_antisymm a b⟩

instance : IsTotal String strLeP := ⟨fun a b => pyStrLe_total a b⟩

/-! ### `research_common` bibliographic helpers -/

/-- Python `str.split(sep)` worker for a non-empty separator; `cur` is the
reversed current field. -/
def splitSubGo (sh : Char) (st : List Char) :
    List Char → List Char → List (List Char)
  | cur, [] => [cur.reverse]
  | cur, c :: cs =>
    if sh == c && prefixAt st cs then
      cur.reverse :: splitSubGo sh st [] (cs.drop st.length)
    else
      splitSubGo sh st (c :: cur) cs
termination_by _ l => l.length
decreasing_by
  · simp only [List.length_cons, List.length_drop]
    omega
  · simp

/-- Python `s.split(sep)` for a non-empty separator (keeps empty fields). -/
def splitOnSub (s sep : String) : List String :=
  match sep.data with
  | [] => [s]
  | sh :: st => (splitSubGo sh st [] s.data).map String.mk

/-- Python `s.split(sep, 1)`: the text before and after the first
occurrence of the separator, if any. -/
def splitFirstOn (s sep : String) : Option (String × String) :=
  match splitOnSub s sep with
  | [] => none
  | [_] => none
  | a :: rest => some (a, joinSepAux sep.data rest)
where
  joinSepAux (sep : List Char) : List String → String
    | [] => ""
    | [x] => x
    | x :: y :: rest => x ++ String.mk sep ++ joinSepAux sep (y :: rest)

/-- One parsed RIS record (`research_common.parse_ris_file` entry dict). -/
structure RisEntry where
  type : String := ""
  authors : List String := []
  title : String := ""
  journal : String := ""
  year : String := ""
  doi : String := ""
  url : String := ""
  volume : String := ""
  issue : String := ""
  sp : String := ""
  ep : String := ""
  publisher : String := ""
deriving Repr, DecidableEq

/-- Tag dispatch of `parse_ris_file`'s inner line loop. -/
def risApplyTag (e : RisEntry) (tag value : String) : RisEntry :=
  if tag = "TY" then { e with type := value }
  else if tag = "AU" then { e with authors := e.authors ++ [value] }
  else if tag = "T1" ∨ tag = "TI" then { e with title := value }
  else if tag = "T2" ∨ tag = "JO" ∨ tag = "JA" ∨ tag = "JF" then
    (if e.journal = "" then { e with journal := value } else e)
  else if tag = "PY" then { e with year := pyTake value 4 }
  else if tag = "DO" then { e with doi := value }
  else if tag = "UR" then { e with url := value }
  else if tag = "VL" then { e with volume := value }
  else if tag = "IS" then { e with issue := value }
  else if tag = "SP" then { e with sp := value }
  else if tag = "EP" then { e with ep := value }
  else if tag = "PB" then { e with publisher := value }
  else e

/-- One raw RIS block (between `ER  -` terminators) to an entry. -/
def risEntryOfRaw (raw : String) : RisEntry :=
  (splitLines raw).foldl
    (fun e line =>
      match splitFirstOn line " - " with
      | none => e
      | some (tag, value) =>
        let tag := pyStrip tag
        let value := pyStrip value
        if value = "" then e else risApplyTag e tag value)
    {}

/-- `research_common.parse_ris_file` on the file content (`none` models a
missing file, which yields an empty entry list, never an error). -/
def parse_ris_file (content : Option String) : List RisEntry :=
  match content with
  | none => []
  | some text =>
    ((splitOnSub text "ER  -").filter (fun raw => strHas raw "TY  -")).map
      risEntryOfRaw

/-- `research_common.normalize_title`:
`re.sub(r"[^a-z0-9]+", "", text.lower())`. -/
def normalize_title (text : String) : String :=
  String.mk ((pyLower text).data.filter
    (fun c => ('a' ≤ c && c ≤ 'z') || c.isDigit))

/-- Python-dict update keeping the original key position on overwrite. -/
def dictUpd [BEq κ] (k : κ) (v : α) (d : List (κ × α)) : List (κ × α) :=
  if d.any (fun kv => kv.1 == k) then
    d.map (fun kv => if kv.1 == k then (k, v) else kv)
  else d ++ [(k, v)]

/-- Python-dict lookup. -/
def dictGet [BEq κ] (d : List (κ × α)) (k : κ) : Option α :=
  (d.find? (fun kv => kv.1 == k)).map (·.2)

/-- `research_common.build_ris_indexes`. -/
def build_ris_indexes (entries : List RisEntry) :
    List (String × RisEntry) × List (String × RisEntry) :=
  entries.foldl
    (fun (acc : List (String × RisEntry) × List (String × RisEntry)) e =>
      let doi := pyLower (pyStrip e.doi)
      let title := pyStrip e.title
      let byDoi := if doi ≠ "" then dictUpd doi e acc.1 else acc.1
      let byTitle :=
        if title ≠ "" then dictUpd (normalize_title title) e acc.2 else acc.2
      (byDoi, byTitle))
    ([], [])

/-- `research_common.find_ris_match`. -/
def find_ris_match (doi : Option String) (title : Option String)
    (by_doi by_title : List (String × RisEntry)) : Option RisEntry :=
  let tryDoi :=
    match doi with
    | some d => if d ≠ "" then dictGet by_doi (pyLower d) else none
    | none => none
  match tryDoi with
  | some e => some e
  | none =>
    match title with
    | some t =>
      if t ≠ "" then
        let norm := normalize_title t
        match dictGet by_title norm with
        | some e => some e
        | none =>
          ((by_title.find? (fun kv =>
            norm ≠ "" && (hasSub norm.data kv.1.data ||
              hasSub kv.1.data norm.data))).map (·.2))
      else none
    | none => none

/-- ASCII `str.isalnum()` (the titles and years the pipeline inspects are
ASCII at the decision points modelled). -/
def isAsciiAlnum (c : Char) : Bool :=
  ('a' ≤ c && c ≤ 'z') || ('A' ≤ c && c ≤ 'Z') || c.isDigit

/-- Character class of `DOI_REGEX`'s tail, `[-._;()/:A-Z0-9]` with
`re.IGNORECASE`. -/
def isDoiTailChar (c : Char) : Bool :=
  c == '-' || c == '.' || c == '_' || c == ';' || c == '(' || c == ')' ||
    c == '/' || c == ':' || ('A' ≤ c && c ≤ 'Z') || ('a' ≤ c && c ≤ 'z') ||
    c.isDigit

/-- Try `DOI_REGEX` = `10\.\d{4,9}/[-._;()/:A-Z0-9]+` at one position.
Digits cannot be `'/'`, so the greedy `\d{4,9}` matches exactly the whole
digit run, which must have length 4–9 and be followed by `'/'`. -/
def doiMatchAt (l : List Char) : Option String :=
  match l with
  | '1' :: '0' :: '.' :: t =>
    let ds := t.takeWhile Char.isDigit
    let rest := t.dropWhile Char.isDigit
    if 4 ≤ ds.length ∧ ds.length ≤ 9 then
      match rest with
      | '/' :: t2 =>
        let tail := t2.takeWhile isDoiTailChar
        if tail.isEmpty then none
        else some (String.mk ('1' :: '0' :: '.' :: ds ++ '/' :: tail))
      | _ => none
    else none
  | _ => none

/-- Leftmost `DOI_REGEX` search. -/
def doiSearch : List Char → Option String
  | [] => none
  | c :: cs =>
    match doiMatchAt (c :: cs) with
    | some m => some m
    | none => doiSearch cs

/-- `research_common.detect_doi`: regex search then `rstrip(".,);]")`. -/
def detect_doi (text : String) : Option String :=
  (doiSearch text.data).map (fun m =>
    String.mk ((m.data.reverse.dropWhile (fun c =>
      c == '.' || c == ',' || c == ')' || c == ';' || c == ']')).reverse))

/-- `\w` for the word boundaries of `YEAR_REGEX` (ASCII). -/
def isWordChar (c : Char) : Bool := isAsciiAlnum c || c == '_'

/-- Try `\b(19|20)\d{2}\b` at one position (`prevIsWord` tells whether the
preceding character is a word character). -/
def yearMatchAt (prevIsWord : Bool) (l : List Char) : Option String :=
  if prevIsWord then none
  else
    match l with
    | a :: b :: c :: d :: rest =>
      if ((a == '1' && b == '9') || (a == '2' && b == '0')) &&
          c.isDigit && d.isDigit &&
          (match rest with | [] => true | e :: _ => !(isWordChar e)) then
        some (String.mk [a, b, c, d])
      else none
    | _ => none

/-- Leftmost `YEAR_REGEX` search. -/
def yearSearchGo (prevIsWord : Bool) : List Char → Option String
  | [] => none
  | c :: cs =>
    match yearMatchAt prevIsWord (c :: cs) with
    | some m => some m
    | none => yearSearchGo (isWordChar c) cs

/-- First `\b(19|20)\d{2}\b` match in the text, as its 4-character string. -/
def yearSearch (text : String) : Option String :=
  yearSearchGo false text.data

/-- The boilerplate line openers rejected by `extract_title_from_page`. -/
def bannedTitleOpeners : List String :=
  ["downloaded from", "contents", "keywords", "research", "accepted",
   "doi", "http", "www", "open access", "journal", "article",
   "available online"]

/-- `re.fullmatch(r"[0-9.\- ]+", line)`. -/
def isNumericLine (line : String) : Bool :=
  !line.data.isEmpty &&
    line.data.all (fun c => c.isDigit || c == '.' || c == '-' || c == ' ')

/-- `research_common.extract_title_from_page`. -/
def extract_title_from_page (page_text : String) : String :=
  let lines := ((splitLines page_text).map clean_whitespace).filter
    (fun l => l ≠ "")
  let candidates := (lines.take 50).filter (fun line =>
    let lower := pyLower line
    !(bannedTitleOpeners.any (fun p => strStarts lower p)) &&
      !(line.data.length < 10) && !(isNumericLine line))
  match candidates with
  | [] => ""
  | title :: rest =>
    if rest ≠ [] ∧ title.data.length < 90 then
      match rest with
      | nxt :: _ =>
        if nxt.data.length < 90 ∧ ¬ (nxt.data.reverse.headD ' ' = ':') then
          if (title.data.reverse.headD ' ').isAlphanum ∧
              isAsciiAlnumHead nxt then
            let joined := title ++ " " ++ nxt
            if joined.data.length ≤ 180 then joined else title
          else title
        else title
      | [] => title
    else title
where
  isAsciiAlnumHead (s : String) : Bool :=
    match s.data with
    | [] => false
    | c :: _ => isAsciiAlnum c

/-- `", ".join(...)`-style joining. -/
def joinSep (sep : String) : List String → String
  | [] => ""
  | [x] => x
  | x :: y :: rest => x ++ sep ++ joinSep sep (y :: rest)

/-- The entry dict passed to `to_vancouver_citation`. -/
structure CiteEntry where
  authors : List String := []
  title : String := ""
  journal : String := ""
  year : String := ""
  volume : String := ""
  issue : String := ""
  sp : String := ""
  ep : String := ""
  doi : String := ""
  url : String := ""
deriving Repr, DecidableEq

/-- `research_common.to_vancouver_citation`. -/
def to_vancouver_citation (e : CiteEntry) (fallback_title : String)
    (fallback_url : String := "") : String :=
  let author_txt :=
    joinSep ", " ((e.authors.map pyStrip).filter (fun a => a ≠ ""))
  let title := if pyStrip e.title = "" then fallback_title else pyStrip e.title
  let journal := pyStrip e.journal
  let year := pyStrip e.year
  let volume := pyStrip e.volume
  let issue := pyStrip e.issue
  let sp := pyStrip e.sp
  let ep := pyStrip e.ep
  let doi := pyStrip e.doi
  let url := if pyStrip e.url = "" then fallback_url else pyStrip e.url
  let parts :=
    (if author_txt ≠ "" then [author_txt ++ "."] else []) ++
    (if title ≠ "" then [title ++ "."] else []) ++
    (if journal ≠ "" then
      let vol_issue :=
        if volume ≠ "" ∧ issue ≠ "" then volume ++ "(" ++ issue ++ ")"
        else if volume ≠ "" then volume
        else if issue ≠ "" then "(" ++ issue ++ ")"
        else ""
      let pages :=
        if sp ≠ "" ∧ ep ≠ "" then ":" ++ sp ++ "-" ++ ep
        else if sp ≠ "" then ":" ++ sp
        else ""
      let yblock := if year ≠ "" then year ++ ";" else ""
      [journal ++ ". " ++ yblock ++ vol_issue ++ pages ++ "."]
    else if year ≠ "" then [year ++ "."] else []) ++
    (if doi ≠ "" then ["doi:" ++ doi ++ "."] else []) ++
    (if url ≠ "" then ["Available from: " ++ url ++ "."] else [])
  if parts = [] then fallback_title else joinSep " " parts

/-! ### `extract_assets.py` -/

/-- Python `int(str)`: strip, optional sign, decimal digits. -/
def pyInt? (s : String) : Option Int :=
  match stripChars s.data with
  | [] => none
  | '+' :: ds =>
    if !ds.isEmpty && ds.all Char.isDigit then some (natOfDigits ds) else none
  | '-' :: ds =>
    if !ds.isEmpty && ds.all Char.isDigit then
      some (-(natOfDigits ds : Int))
    else none
  | ds =>
    if ds.all Char.isDigit then some (natOfDigits ds) else none

/-- Worker for `wordsOf`: `cur` is the reversed current word. -/
def wordsGo (cur : List Char) : List Char → List (List Char)
  | [] => if cur.isEmpty then [] else [cur.reverse]
  | c :: cs =>
    if isPySpace c then
      if cur.isEmpty then wordsGo [] cs
      else cur.reverse :: wordsGo [] cs
    else wordsGo (c :: cur) cs

/-- Python `str.split()` (whitespace words, no empties). -/
def wordsOf (l : List Char) : List (List Char) := wordsGo [] l

/-- `extract_assets.parse_pdfimages_list` on one stdout line; only the
five row fields read downstream (`page`, `num`, `type`, `width`,
`height`) are retained — the other eleven captured tokens are stored in
the row dict but never read.  A failing `int()` conversion aborts the row
(the `try`/`except` skips it). -/
def pdfimagesRowOfLine (raw : String) : Option ImgRow :=
  let line := pyStrip raw
  if line = "" ∨ strStarts line "page" ∨ strStarts line "-" then none
  else
    let tokens := (wordsOf line.data).map String.mk
    if tokens.length < 16 then none
    else
      let rev := tokens.reverse
      match pyInt? (rev.getD 15 ""), pyInt? (rev.getD 14 ""),
          pyInt? (rev.getD 12 ""), pyInt? (rev.getD 11 "") with
      | some page, some num, some width, some height =>
        some { page := page, num := num, type := rev.getD 13 ""
               width := width, height := height }
      | _, _, _, _ => none

/-- `extract_assets.parse_pdfimages_list`. -/
def parse_pdfimages_list (output : String) : List ImgRow :=
  (splitLines output).filterMap pdfimagesRowOfLine

/-- One raster file produced by `pdfimages -png` in the raw directory:
its numeric index (from `img-<n>.png`), its byte size, and its content
digest (`hash_file` is modelled as the digest identity, SHA-1 treated as
collision-free). -/
structure RawImg where
  idx : Int
  size : Nat
  digest : String
deriving Repr, DecidableEq

/-- A kept figure record of `figures_index.json`. -/
structure FigRecord where
  figure_id : String
  source : String
  page : Int
  width : Option Int
  height : Option Int
  size_bytes : Nat
  relative_path : String
  caption_hint : String
deriving Repr, DecidableEq

/-- A rejection record of `figures_index.json`. -/
structure RejRecord where
  num : Int
  reason : String
deriving Repr, DecidableEq

/-- `f"{n:04d}"`. -/
def pad4 (n : Nat) : String :=
  if n < 10 then "000" ++ toString n
  else if n < 100 then "00" ++ toString n
  else if n < 1000 then "0" ++ toString n
  else toString n

/-- The figure-filter loop state. -/
structure FigLoopState where
  kept : List FigRecord
  rejected : List RejRecord
  seen : List String
deriving Repr

/-- The `for row in rows` filter loop of `extract_figures`. -/
def figuresLoop (figuresDir : String) (fileIdx : List (Int × RawImg)) :
    List ImgRow → FigLoopState → FigLoopState
  | [], st => st
  | row :: rest, st =>
    let idx := row.num
    match dictGet fileIdx idx with
    | none =>
      figuresLoop figuresDir fileIdx rest
        { st with rejected := st.rejected ++ [⟨idx, "missing_output_file"⟩] }
    | some img =>
      let (keep, reason) := should_keep_image row img.size
      if ¬ keep then
        figuresLoop figuresDir fileIdx rest
          { st with rejected := st.rejected ++ [⟨idx, reason⟩] }
      else if img.digest ∈ st.seen then
        figuresLoop figuresDir fileIdx rest
          { st with rejected := st.rejected ++ [⟨idx, "duplicate_hash"⟩] }
      else
        let out_name := "fig_" ++ pad4 (st.kept.length + 1) ++ ".png"
        figuresLoop figuresDir fileIdx rest
          { kept := st.kept ++
              [{ figure_id := out_name
                 source := "embedded_image"
                 page := row.page
                 width := some row.width
                 height := some row.height
                 size_bytes := img.size
                 relative_path := figuresDir ++ "/" ++ out_name
                 caption_hint :=
                   "Embedded figure from page " ++ toString row.page }]
            rejected := st.rejected
            seen := st.seen ++ [img.digest] }

/-- The `figures_index.json` summary object. -/
structure FigSummary where
  pdfimages_rows : Nat
  pdfimages_exit_code : Int
  pdfimages_extract_exit_code : Int
  kept_count : Nat
  rejected_count : Nat
  fallback_used : Bool
  figures : List FigRecord
  rejections : List RejRecord
deriving Repr, DecidableEq

/-- The external-tool and file-system behaviour for one paper during
`extract_assets`. -/
structure PaperWorld where
  /-- `metadata.json` already exists from an earlier run -/
  metadataExists : Bool
  /-- `text.txt` already exists from an earlier (partial) run -/
  preTextExists : Bool
  /-- full `pdftotext <src> <text>` on the direct path -/
  ftDirect : Res
  /-- whether the direct call leaves `text.txt` on disk -/
  ftDirectWrites : Bool
  /-- `shutil.copy2` of the source into the staging directory -/
  copyOk : Bool
  /-- full `pdftotext <staged> <text>` -/
  ftStaged : Res
  /-- whether the staged call leaves `text.txt` on disk -/
  ftStagedWrites : Bool
  /-- content of `text.txt` when present -/
  textContent : String
  /-- `pdfimages -list` -/
  imgList : Res
  /-- `pdfimages -png` -/
  imgExtract : Res
  /-- raster files found in the raw directory after extraction -/
  rawImages : List RawImg
  /-- `pdftoppm` page rendering (fallback path) -/
  ppm : Res
  /-- sizes of the rendered `page-*.png` files, in name order -/
  renderedSizes : List Nat
deriving Repr

/-- `extract_assets.extract_figures`: list and extract embedded images,
filter them, fall back to page renders, and report the summary.  A
`TimeoutExpired` from any of the three tool calls escapes. -/
def extract_figures (pw : PaperWorld) (figuresDir : String)
    (pages_count : Nat) : Except PyErr FigSummary :=
  match pw.imgList with
  | .timeout => .error .timeoutExpired
  | .done lcode lout =>
    let rows := if lcode = 0 then parse_pdfimages_list lout else []
    match pw.imgExtract with
    | .timeout => .error .timeoutExpired
    | .done ecode _ =>
      let files := sortByB (fun a b => a.idx ≤ b.idx) pw.rawImages
      let fileIdx := files.foldl (fun d f => dictUpd f.idx f d) []
      let st := figuresLoop figuresDir fileIdx rows ⟨[], [], []⟩
      let fallback_pages := min 12 pages_count
      match
        (if st.kept.length = 0 ∧ 0 < fallback_pages then
          match pw.ppm with
          | .timeout => none
          | .done rcode _ =>
            some (true,
              if rcode = 0 then
                (enumFrom 1 pw.renderedSizes).map (fun it =>
                  ({ figure_id := "render_" ++ pad4 it.1 ++ ".png"
                     source := "page_render"
                     page := (it.1 : Int)
                     width := none
                     height := none
                     size_bytes := it.2
                     relative_path :=
                       figuresDir ++ "/render_" ++ pad4 it.1 ++ ".png"
                     caption_hint :=
                       "Fallback rendered page " ++ toString it.1 } :
                    FigRecord))
              else [])
        else some (false, [])) with
      | none => .error .timeoutExpired
      | some (fallback_used, renderKept) =>
        let kept := st.kept ++ renderKept
        .ok { pdfimages_rows := rows.length
              pdfimages_exit_code := lcode
              pdfimages_extract_exit_code := ecode
              kept_count := kept.length
              rejected_count := st.rejected.length
              fallback_used := fallback_used
              figures := kept
              rejections := st.rejected.take 200 }

/-- The `text_quality` object of `build_text_quality_summary`. -/
structure TextQuality where
  char_count : Nat
  word_count : Nat
  page_count_from_text : Nat
  nonempty_pages : Nat
  quality : String
deriving Repr, DecidableEq

/-- `extract_assets.build_text_quality_summary`. -/
def build_text_quality_summary (full_text : String) (pages : List String) :
    TextQuality :=
  let text_chars := full_text.data.length
  let quality :=
    if text_chars < 300 then "very_low"
    else if text_chars < 3000 then "low"
    else "good"
  { char_count := text_chars
    word_count := (wordsOf full_text.data).length
    page_count_from_text := pages.length
    nonempty_pages := (pages.filter (fun p => pyStrip p ≠ "")).length
    quality := quality }

/-- The `extraction` sub-object added to `metadata.json`. -/
structure ExtractionInfo where
  processed_at_utc : String
  text_extracted : Bool
  text_mode : String
  working_pdf_path : String
  text_quality : TextQuality
  equation_candidates : Nat
  figure_count : Nat
  figure_fallback_used : Bool
  pdf_page_count_declared : Option Nat
deriving Repr, DecidableEq

/-- The `metadata.json` object built by `build_metadata` (the
`extraction` key is attached later, hence optional). -/
structure Metadata where
  paper_id : String
  canonical_file_name : String
  canonical_relative_path : String
  alias_file_names : List String
  title : String
  doi : String
  journal : String
  year : String
  authors : List String
  url : String
  ris_matched : Bool
  extract_title_source : String
  extract_doi_source : String
  repo_relative_pdf : String
  vancouver_citation : String
  extraction : Option ExtractionInfo := none
deriving Repr, DecidableEq

/-- One row of the unique manifest as read by `extract_assets` (the
dict keys the stage accesses). -/
structure MPaper where
  paper_id : String
  canonical_file_name : String
  canonical_absolute_path : String
  canonical_relative_path : String
  alias_file_names : List String
  extractability_status : String
  pages : Option Nat
deriving Repr, DecidableEq

/-- `extract_assets.build_metadata`. -/
def build_metadata (paper : MPaper) (pages : List String)
    (ris_by_doi ris_by_title : List (String × RisEntry)) : Metadata :=
  let first_pages := joinSep "\n" (pages.take 3)
  let first_page := pages.headD ""
  let doi := detect_doi first_pages
  let title_candidate := extract_title_from_page first_page
  let ris_match := find_ris_match doi (some title_candidate) ris_by_doi
    ris_by_title
  let year := (yearSearch first_pages).getD ""
  let base : Metadata :=
    { paper_id := paper.paper_id
      canonical_file_name := paper.canonical_file_name
      canonical_relative_path := paper.canonical_relative_path
      alias_file_names := paper.alias_file_names
      title := title_candidate
      doi := doi.getD ""
      journal := ""
      year := year
      authors := []
      url := ""
      ris_matched := false
      extract_title_source :=
        if title_candidate ≠ "" then "first_page_heuristic" else "unknown"
      extract_doi_source :=
        if (doi.getD "") ≠ "" then "first_3_pages" else "unknown"
      repo_relative_pdf := paper.canonical_absolute_path
      vancouver_citation := "" }
  let withRis :=
    match ris_match with
    | none => base
    | some e =>
      { base with
        ris_matched := true
        title := if e.title ≠ "" then e.title else base.title
        doi := if e.doi ≠ "" then e.doi else base.doi
        journal := if e.journal ≠ "" then e.journal else base.journal
        year := if e.year ≠ "" then e.year else base.year
        authors := if e.authors ≠ [] then e.authors else base.authors
        url := if e.url ≠ "" then e.url else base.url }
  let withTitle :=
    if withRis.title = "" then
      { withRis with title := pyStem paper.canonical_file_name }
    else withRis
  { withTitle with
    vancouver_citation :=
      to_vancouver_citation
        { authors := withTitle.authors
          title := withTitle.title
          journal := withTitle.journal
          year := withTitle.year
          doi := withTitle.doi
          url := withTitle.url }
        withTitle.title
        withTitle.url }

/-- One try of `try_extract_text` inside `extract_full_text` for one
candidate path (`stagedCand = true` means the staging copy).  Returns
`(ok, text.txt-exists)` plus the staging directory contents; a failing
`shutil.copy2` raises (`OSError`, uncaught), a timeout raises
`TimeoutExpired`. -/
def tryCandidate (pw : PaperWorld) (stagedCand : Bool) (stageName : String)
    (staging : List String) (textExists : Bool) :
    Except PyErr (Bool × Bool) × List String :=
  if stagedCand then
    if ¬ pw.copyOk then (.error .osError, staging)
    else
      let staging' :=
        if stageName ∈ staging then staging else staging ++ [stageName]
      match pw.ftStaged with
      | .timeout => (.error .timeoutExpired, staging')
      | .done code _ =>
        let te := textExists || pw.ftStagedWrites
        (.ok (decide (code = 0) && te, te), staging')
  else
    match pw.ftDirect with
    | .timeout => (.error .timeoutExpired, staging)
    | .done code _ =>
      let te := textExists || pw.ftDirectWrites
      (.ok (decide (code = 0) && te, te), staging)

/-- `extract_assets.extract_full_text`: try the two candidate paths in
preference order; result is `(ok_text, text_mode, working-is-staged)`. -/
def extract_full_text (pw : PaperWorld) (stageName : String)
    (prefer_staging : Bool) (staging : List String) (preText : Bool) :
    Except PyErr (Bool × String × Bool) × List String :=
  let c1 := prefer_staging
  match tryCandidate pw c1 stageName staging preText with
  | (.error e, st) => (.error e, st)
  | (.ok (ok1, te1), st1) =>
    if ok1 then (.ok (true, if c1 then "staged_path" else "direct", c1), st1)
    else
      let c2 := !c1
      match tryCandidate pw c2 stageName st1 te1 with
      | (.error e, st) => (.error e, st)
      | (.ok (ok2, _), st2) =>
        if ok2 then
          (.ok (true, if c2 then "staged_path" else "direct", c2), st2)
        else (.ok (false, "failed on direct and staged path", false), st2)

/-- One row of `extraction_summary.json` (`skipped` rows carry no
`text_extracted`/quality fields). -/
structure ERow where
  paper_id : String
  status : String
  text_extracted : Option Bool := none
  text_quality : Option String := none
  figure_count : Option Nat := none
  equation_count : Option Nat := none
deriving Repr, DecidableEq

/-- On-disk side effects of one `extract_assets` run beyond the declared
per-paper artifacts. -/
structure ExtractFS where
  /-- files in `out_dir/staging` (never removed by the stage) -/
  stagingFiles : List String := []
  /-- per-paper `_raw_figures` directories still present -/
  rawDirsLeft : List String := []
  /-- `(paper_id, metadata)` of the metadata files written this run -/
  artifactsWritten : List (String × Metadata) := []
  /-- `extraction_summary.json` written -/
  summaryWritten : Bool := false
deriving Repr

/-- The per-paper body of the `for paper in papers` loop of
`extract_assets`. -/
def processPaper (pw : PaperWorld) (now outDir : String)
    (ris_by_doi ris_by_title : List (String × RisEntry)) (force : Bool)
    (p : MPaper) (fs : ExtractFS) : Except PyErr ERow × ExtractFS :=
  if pw.metadataExists ∧ ¬ force then
    (.ok { paper_id := p.paper_id, status := "skipped" }, fs)
  else
    let stageName := p.paper_id ++ ".pdf"
    let prefer_staging := pyLower p.extractability_status = "requires_staging"
    let preText := if force then false else pw.preTextExists
    match extract_full_text pw stageName prefer_staging fs.stagingFiles
        preText with
    | (.error e, st) => (.error e, { fs with stagingFiles := st })
    | (.ok (ok_text, text_mode, workingStaged), st) =>
      let fs := { fs with stagingFiles := st }
      let full_text := if ok_text then pw.textContent else ""
      let pages :=
        if ok_text then split_pages_from_pdftotext full_text else []
      let metadata := build_metadata p pages ris_by_doi ris_by_title
      let text_quality := build_text_quality_summary full_text pages
      let equation_candidates := extract_equation_candidates pages 12
      let pages_count :=
        match p.pages with
        | some (n + 1) => n + 1
        | _ => pages.length
      let figuresDir := outDir ++ "/papers/" ++ p.paper_id ++ "/figures"
      let rawDir := outDir ++ "/papers/" ++ p.paper_id ++ "/_raw_figures"
      match extract_figures pw figuresDir pages_count with
      | .error e =>
        (.error e, { fs with rawDirsLeft := fs.rawDirsLeft ++ [rawDir] })
      | .ok figure_summary =>
        let metadata :=
          { metadata with
            extraction := some
              { processed_at_utc := now
                text_extracted := ok_text
                text_mode := text_mode
                working_pdf_path :=
                  if workingStaged then outDir ++ "/staging/" ++ stageName
                  else p.canonical_absolute_path
                text_quality := text_quality
                equation_candidates := equation_candidates.length
                figure_count := figure_summary.kept_count
                figure_fallback_used := figure_summary.fallback_used
                pdf_page_count_declared := p.pages } }
        (.ok { paper_id := p.paper_id
               status := "processed"
               text_extracted := some ok_text
               text_quality := some text_quality.quality
               figure_count := some figure_summary.kept_count
               equation_count := some equation_candidates.length },
          { fs with
            artifactsWritten := fs.artifactsWritten ++ [(p.paper_id, metadata)] })

/-- The paper loop of `extract_assets`; a raised exception aborts the
remaining papers. -/
def extractLoop (w : String → PaperWorld) (now outDir : String)
    (ris_by_doi ris_by_title : List (String × RisEntry)) (force : Bool) :
    List MPaper → ExtractFS → Except PyErr (List ERow) × ExtractFS
  | [], fs => (.ok [], fs)
  | p :: rest, fs =>
    match processPaper (w p.paper_id) now outDir ris_by_doi ris_by_title
        force p fs with
    | (.error e, fs') => (.error e, fs')
    | (.ok row, fs') =>
      match extractLoop w now outDir ris_by_doi ris_by_title force rest
          fs' with
      | (.error e, fs'') => (.error e, fs'')
      | (.ok rows, fs'') => (.ok (row :: rows), fs'')

/-- The `extraction_summary.json` object. -/
structure ExtractSummary where
  generated_at_utc : String
  total_records : Nat
  processed_records : Nat
  skipped_records : Nat
  rows : List ERow
deriving Repr, DecidableEq

/-- `extract_assets.extract_assets`: parse the RIS file, process every
manifest paper, and write the extraction summary.  The staging directory
`out_dir/staging` is created up front and never cleaned up. -/
def extract_assets (w : String → PaperWorld) (now outDir : String)
    (papers : List MPaper) (risContent : Option String) (force : Bool) :
    Except PyErr ExtractSummary × ExtractFS :=
  match extractLoop w now outDir
      (build_ris_indexes (parse_ris_file risContent)).1
      (build_ris_indexes (parse_ris_file risContent)).2 force papers {} with
  | (.error e, fs) => (.error e, fs)
  | (.ok rows, fs) =>
    (.ok { generated_at_utc := now
           total_records := rows.length
           processed_records :=
             (rows.filter (fun r => r.status = "processed")).length
           skipped_records :=
             (rows.filter (fun r => r.status = "skipped")).length
           rows := rows },
      { fs with summaryWritten := true })

/-! ### `summarize_papers.py` -/

/-- Case-insensitive ASCII prefix test (`pat` given lowercase). -/
def prefixCIAt : List Char → List Char → Bool
  | [], _ => true
  | _ :: _, [] => false
  | p :: ps, c :: cs => p == asciiLowerChar c && prefixCIAt ps cs

/-- `\b` after the end of a word: the next character is not a word
character (or the text ends). -/
def boundaryAfter : List Char → Bool
  | [] => true
  | c :: _ => !(isWordChar c)

/-- The character class `[:\s\-]` of `ABSTRACT_REGEX`. -/
def absSkipChar (c : Char) : Bool := c == ':' || isPySpace c || c == '-'

/-- The keyword alternation
`(?:keywords?|1\.?\s+introduction|introduction)\b` of `ABSTRACT_REGEX`
tried at one position (case-insensitive). -/
def absKwAt (t : List Char) : Bool :=
  (if prefixCIAt "keywords".data t then boundaryAfter (t.drop 8)
   else if prefixCIAt "keyword".data t then boundaryAfter (t.drop 7)
   else false) ||
  (match t with
   | '1' :: r =>
     let r1 := match r with | '.' :: r' => r' | _ => r
     let s := r1.dropWhile isPySpace
     (decide (s.length < r1.length)) && prefixCIAt "introduction".data s &&
       boundaryAfter (s.drop 12)
   | _ => false) ||
  (prefixCIAt "introduction".data t && boundaryAfter (t.drop 12))

/-- The terminator `(?:\n\s*(?:keywords?|…)\b|$)`: a newline-introduced
section header, the end of the text, or the position just before a final
newline (Python `$` without `re.M`). -/
def absTermAt (l : List Char) : Bool :=
  (match l with
   | '\n' :: t => absKwAt (t.dropWhile isPySpace)
   | _ => false) ||
  (match l with
   | [] => true
   | ['\n'] => true
   | _ => false)

/-- The lazy `(.+?)` scan (`re.S`: dot matches newlines): consume at
least one character, stopping at the first position where the terminator
matches. -/
def lazyCap (acc : List Char) : List Char → Option (List Char)
  | [] => none
  | c :: cs => if absTermAt cs then some ((c :: acc).reverse) else lazyCap (c :: acc) cs

/-- Backtracking over the greedy `[:\s\-]*` skip: try the longest skip
first, shrinking until the lazy capture succeeds. -/
def absTrySkips (j : Nat) (afterWord : List Char) : Option (List Char) :=
  match lazyCap [] (afterWord.drop j) with
  | some r => some r
  | none => match j with
    | 0 => none
    | j' + 1 => absTrySkips j' afterWord

/-- Try the whole `ABSTRACT_REGEX` with the match of `\babstract\b`
anchored at the current position. -/
def absMatchAt (afterWord : List Char) : Option (List Char) :=
  absTrySkips ((afterWord.takeWhile absSkipChar).length) afterWord

/-- Leftmost search for `ABSTRACT_REGEX`; returns capture group 1. -/
def absSearchGo : List Char → Bool → Option (List Char)
  | [], _ => none
  | c :: rest, prevWord =>
    match
      (if !prevWord && prefixCIAt "abstract".data (c :: rest) &&
          boundaryAfter ((c :: rest).drop 8) then
        absMatchAt ((c :: rest).drop 8)
      else none) with
    | some cap => some cap
    | none => absSearchGo rest (isWordChar c)

/-- `ABSTRACT_REGEX.search(text)`, capture group 1. -/
def absSearch (text : String) : Option String :=
  (absSearchGo text.data false).map String.mk

/-- `summarize_papers.extract_abstract_snippet`. -/
def extract_abstract_snippet (pages : List String) : String × Nat :=
  match pages with
  | [] => ("", 1)
  | _ =>
    let first_three := joinSep "\n" (pages.take 3)
    match absSearch first_three with
    | some cap => (pyTake (clean_whitespace cap) 2400, 1)
    | none =>
      (pyTake (clean_whitespace (joinSep "\n" (pages.take 2))) 2000, 1)

/-- Split a whitespace-collapsed string at `(?<=[.!?])\s+` boundaries
(after collapsing, every whitespace run is a single space). -/
def splitSentGo (cur : List Char) : List Char → List (List Char)
  | [] => [cur.reverse]
  | c :: cs =>
    if c == ' ' && (match cur with
      | p :: _ => p == '.' || p == '!' || p == '?'
      | [] => false) then
      cur.reverse :: splitSentGo [] cs
    else splitSentGo (c :: cur) cs

/-- `research_common.sentence_tokenize`. -/
def sentence_tokenize (text : String) : List String :=
  let flat := clean_whitespace text
  if flat = "" then []
  else
    ((splitSentGo [] flat.data).map String.mk).filterMap (fun p =>
      let t := pyStrip p
      if t ≠ "" then some t else none)

/-- A pooled sentence with its source page
(`{"page": page_no, "text": sent}`). -/
structure Sent where
  page : Nat
  text : String
deriving Repr, DecidableEq

/-- `summarize_papers.collect_sentences_with_pages`. -/
def collect_sentences_with_pages (pages : List String)
    (page_limit : Nat := 8) : List Sent :=
  (enumFrom 1 (pages.take page_limit)).flatMap (fun it =>
    let raw_lines := ((splitLines it.2).map clean_whitespace).filter
      (fun l => 20 ≤ l.data.length)
    raw_lines.flatMap (fun line =>
      (sentence_tokenize line).filterMap (fun sent =>
        if sent.data.length < 25 then none
        else if 320 < sent.data.length then
          some ⟨it.1, pyTake sent 320⟩
        else some ⟨it.1, sent⟩)))

/-- The `norm = re.sub(r"\s+", " ", lower)` dedup key of
`pick_sentences`. -/
def sentNormKey (s : String) : String :=
  String.mk (collapseWS (pyLower s).data)

/-- First pass of `pick_sentences`: greedy keyword matches in pool order;
returns `(chosen, seen, reached-limit)`. -/
def pickPhase1 (keywords : List String) (limit : Nat) :
    List Sent → List Sent → List String → List Sent × List String × Bool
  | [], chosen, seen => (chosen, seen, false)
  | item :: rest, chosen, seen =>
    let lower := pyLower item.text
    if keywords.any (fun kw => strHas lower kw) then
      let norm := sentNormKey item.text
      if norm ∈ seen then pickPhase1 keywords limit rest chosen seen
      else
        let chosen' := chosen ++ [item]
        let seen' := seen ++ [norm]
        if limit ≤ chosen'.length then (chosen', seen', true)
        else pickPhase1 keywords limit rest chosen' seen'
    else pickPhase1 keywords limit rest chosen seen

/-- Second pass of `pick_sentences`: pad with the next unselected
sentences in pool order. -/
def pickPhase2 (limit : Nat) :
    List Sent → List Sent → List String → List Sent
  | [], chosen, _ => chosen
  | item :: rest, chosen, seen =>
    let norm := sentNormKey item.text
    if norm ∈ seen then pickPhase2 limit rest chosen seen
    else
      let chosen' := chosen ++ [item]
      if limit ≤ chosen'.length then chosen'
      else pickPhase2 limit rest chosen' (seen ++ [norm])

/-- `summarize_papers.pick_sentences` (keywords are matched lowercase in
the source; the literal keyword lists below are already lowercase). -/
def pick_sentences (sentences : List Sent) (keywords : List String)
    (limit : Nat) : List Sent :=
  match pickPhase1 keywords limit sentences [] [] with
  | (chosen, _, true) => chosen
  | (chosen, seen, false) => pickPhase2 limit sentences chosen seen

/-- `summarize_papers.format_paragraph_from_sentences`. -/
def format_paragraph_from_sentences (items : List Sent)
    (fallback : String) : String :=
  match items with
  | [] => fallback
  | _ => joinSep " " (items.map (·.text))

/-- `summarize_papers.extract_findings`. -/
def extract_findings (sentences : List Sent) (limit : Nat := 3) :
    List Sent :=
  pick_sentences sentences
    ["result", "show", "found", "demonstrat", "agree", "accuracy",
     "performance"] limit

/-- `summarize_papers.extract_methods`. -/
def extract_methods (sentences : List Sent) (limit : Nat := 3) :
    List Sent :=
  pick_sentences sentences
    ["method", "numerical", "simulation", "finite", "spectral", "lattice",
     "solver", "scheme", "equation"] limit

/-- `summarize_papers.extract_objective`. -/
def extract_objective (sentences : List Sent) (limit : Nat := 2) :
    List Sent :=
  pick_sentences sentences
    ["this paper", "this study", "we present", "we investigate",
     "we propose", "aim", "objective"] limit

/-- `summarize_papers.extract_limitations`. -/
def extract_limitations (sentences : List Sent) (limit : Nat := 2) :
    List Sent :=
  pick_sentences sentences
    ["limitation", "future", "however", "assume", "restricted",
     "challenge", "uncertain"] limit

/-- `summarize_papers.build_repo_observations`. -/
def build_repo_observations (full_text : String) : List String :=
  let lower := pyLower full_text
  let hasAny (tokens : List String) : Bool :=
    tokens.any (fun token => strHas lower token)
  (["This paper links to the vorticity-streamfunction implementation documented in `Markdowns/MATHEMATICAL_FRAMEWORK.md` and `Scripts/Methods/FiniteDifference/README.md`."] ++
   (if hasAny ["arakawa", "finite difference", "rk4", "jacobian"] then
     ["Its numerical treatment can be mapped to the active FD path in `Scripts/Methods/FiniteDifference/FiniteDifferenceMethod.m` and runtime dispatch in `Scripts/Drivers/Tsunami_Vorticity_Emulator.m`."]
    else []) ++
   (if hasAny ["spectral", "fft", "fourier"] then
     ["It informs the experimental spectral branch under `Scripts/Methods/Spectral/README.md`, which is currently not fully wired in dispatcher modes."]
    else []) ++
   (if hasAny ["finite volume", "fvm", "flux"] then
     ["It provides method-level rationale for the finite-volume roadmap in `Scripts/Methods/FiniteVolume/README.md`."]
    else []) ++
   (if hasAny ["validation", "benchmark", "convergence", "error"] then
     ["Its benchmarking ideas are directly relevant to convergence workflows in `Scripts/Modes/Convergence/mode_convergence.m` and `Scripts/Modes/Convergence/run_adaptive_convergence.m`."]
    else []) ++
   (if hasAny ["bathymetry", "topography", "shallow water", "boundary layer", "tsunami"] then
     ["Its physical assumptions should be cross-checked against variable-bathymetry handling in `Scripts/Modes/Variable_Bathymetry_Analysis.m` and planned mode/method unification."]
    else []) ++
   (if hasAny ["energy", "sustainability", "power", "computational cost", "gpu"] then
     ["Its compute-performance implications connect to sustainability instrumentation in `Scripts/Sustainability/SustainabilityLedger.m` and `Scripts/Sustainability/EnergySustainabilityAnalyzer.m`."]
    else []) ++
   (if hasAny ["machine learning", "data-driven", "surrogate", "ai"] then
     ["Its modeling direction can be compared with the ML roadmap in `Markdowns/MACHINE_LEARNING_VORTICITY_ABSORPTION.md`."]
    else [])).take 6

/-- An evidence anchor `(tag, page, quote)`. -/
structure Anchor where
  tag : String
  page : Nat
  quote : String
deriving Repr, DecidableEq

/-- `add_items` of `build_evidence_anchors` applied to one sentence list. -/
def anchorsOfSents (items : List Sent) (tag : String) : List Anchor :=
  items.filterMap (fun item =>
    let quote := clean_whitespace item.text
    if quote = "" then none
    else some ⟨tag, item.page, pyTake quote 280⟩)

/-- `add_items` applied to the equation list (`key_name="equation"`). -/
def anchorsOfEqs (items : List EqCand) : List Anchor :=
  items.filterMap (fun item =>
    let quote := clean_whitespace item.equation
    if quote = "" then none
    else some ⟨"equation", item.page, pyTake quote 280⟩)

/-- The `(tag, page, quote.lower())` dedup loop of
`build_evidence_anchors`. -/
def anchorDedup (seen : List (String × Nat × String)) :
    List Anchor → List Anchor
  | [] => []
  | a :: rest =>
    let key := (a.tag, a.page, pyLower a.quote)
    if key ∈ seen then anchorDedup seen rest
    else a :: anchorDedup (seen ++ [key]) rest

/-- `summarize_papers.build_evidence_anchors`. -/
def build_evidence_anchors (objective methods findings limitations :
    List Sent) (equations : List EqCand) : List Anchor :=
  (anchorDedup []
    (anchorsOfSents objective "objective" ++
     anchorsOfSents methods "methods" ++
     anchorsOfSents findings "findings" ++
     anchorsOfSents limitations "limitations" ++
     anchorsOfEqs equations)).take 14

/-- The manifest fields `summarize_papers` reads per paper. -/
structure SPaper where
  paper_id : String
  canonical_file_name : String
  alias_file_names : List String
  duplicate_count : Nat
deriving Repr, DecidableEq

/-- The per-paper asset files of one paper directory as the summarizer
finds them (`none` = file missing). -/
structure SAssets where
  metadataExists : Bool
  metadata : Metadata
  textContent : Option String
  equations : Option (List EqCand)
  figures : Option (List FigRecord)

/-- One record of the `papers` list in `paper_summaries.json`. -/
structure SummaryRecord where
  paper_id : String
  citation_number : Nat
  title : String
  canonical_file_name : String
  alias_file_names : List String
  objective : String
  methods : String
  findings : String
  limitations : String
  abstract_excerpt : String
  key_equations : List EqCand
  repo_observations : List String
  evidence_anchors : List Anchor
  figures : List FigRecord
  citation : String
  doi : String
  url : String
  year : String
  journal : String
  authors : List String
  text_quality : String
  figure_count : Nat
  equation_count : Nat
deriving Repr, DecidableEq

/-- One bibliography entry. -/
structure BibEntry where
  id : Nat
  paper_id : String
  title : String
  citation : String
  doi : String
  url : String
deriving Repr, DecidableEq

/-- The `validation` block of the corpus JSON. -/
structure Validation where
  all_have_citations : Bool
  all_have_evidence : Bool
  all_have_equation_or_fallback : Bool
deriving Repr, DecidableEq

/-- The `corpus_summary` block. -/
structure CorpusSummary where
  source_total_files : Option Nat
  source_unique_files : Option Nat
  summarized_records : Nat
  duplicate_groups : Nat
deriving Repr, DecidableEq

/-- The whole `paper_summaries.json` object. -/
structure SummOut where
  generated_at_utc : String
  manifest_path : String
  assets_dir : String
  corpus_summary : CorpusSummary
  papers : List SummaryRecord
  bibliography : List BibEntry
  validation : Validation
deriving Repr, DecidableEq

/-- The inputs of one `summarize_papers` run: the manifest and the asset
directory contents. -/
structure SummIn where
  manifest_path : String
  assets_dir : String
  source_total_files : Option Nat
  source_unique_files : Option Nat
  papers : List SPaper
  assets : String → SAssets

/-- The fixed fallback equation entry inserted when no candidates exist. -/
def fallbackEquation : EqCand :=
  ⟨"No extractable governing equation found in machine-readable text.", 1, 0⟩

/-- The per-paper body of the summarizer loop (`citation_number` is the
1-based `enumerate` index); `none` models the `continue` on missing
metadata. -/
def summarizeOne (inp : SummIn) (it : Nat × SPaper) :
    Option (SummaryRecord × BibEntry) :=
  let citation_number := it.1
  let paper := it.2
  let a := inp.assets paper.paper_id
  if ¬ a.metadataExists then none
  else
    let metadata := a.metadata
    let pages :=
      match a.textContent with
      | none => []
      | some t => split_pages_from_pdftotext t
    let equations := a.equations.getD []
    let figures := a.figures.getD []
    let (abstract_text, abstract_page) := extract_abstract_snippet pages
    let sentence_pool := collect_sentences_with_pages pages 10
    let objective_sentences := extract_objective sentence_pool 2
    let methods_sentences := extract_methods sentence_pool 3
    let findings_sentences := extract_findings sentence_pool 3
    let limitation_sentences := extract_limitations sentence_pool 2
    let objective_text := format_paragraph_from_sentences objective_sentences
      "Automated extraction could not isolate a clear objective sentence; see evidence anchors for source excerpts."
    let methods_text := format_paragraph_from_sentences methods_sentences
      "Method-specific language was sparse in extracted text; this summary relies on metadata and equation snippets."
    let findings_text := format_paragraph_from_sentences findings_sentences
      "Clear result statements were not confidently extracted from text; conclusions should be read directly in the source PDF."
    let limitations_text := format_paragraph_from_sentences
      limitation_sentences
      "Explicit limitations were not clearly stated in extracted text; treat this as an extraction-confidence caveat."
    let key_equations :=
      match equations.take 5 with
      | [] => [fallbackEquation]
      | ks => ks
    let evidence0 := build_evidence_anchors objective_sentences
      methods_sentences findings_sentences limitation_sentences
      key_equations
    let evidence :=
      match evidence0 with
      | [] =>
        [⟨"fallback", abstract_page,
          if abstract_text ≠ "" then pyTake abstract_text 280
          else "No evidence text extracted."⟩]
      | _ => evidence0
    let full_text_for_obs := joinSep "\n" (pages.take 8)
    let repo_observations := build_repo_observations full_text_for_obs
    let title :=
      if metadata.title ≠ "" then metadata.title
      else if paper.canonical_file_name ≠ "" then paper.canonical_file_name
      else paper.paper_id
    let citation :=
      if metadata.vancouver_citation ≠ "" then metadata.vancouver_citation
      else title
    some
      ({ paper_id := paper.paper_id
         citation_number := citation_number
         title := title
         canonical_file_name := paper.canonical_file_name
         alias_file_names := paper.alias_file_names
         objective := objective_text
         methods := methods_text
         findings := findings_text
         limitations := limitations_text
         abstract_excerpt := abstract_text
         key_equations := key_equations
         repo_observations := repo_observations
         evidence_anchors := evidence
         figures := figures
         citation := citation
         doi := metadata.doi
         url := metadata.url
         year := metadata.year
         journal := metadata.journal
         authors := metadata.authors
         text_quality :=
           match metadata.extraction with
           | some e => e.text_quality.quality
           | none => "unknown"
         figure_count := figures.length
         equation_count := key_equations.length },
       { id := citation_number
         paper_id := paper.paper_id
         title := title
         citation := citation
         doi := metadata.doi
         url := metadata.url })

/-- `summarize_papers.summarize_papers`: the corpus JSON as a function of
the extraction artifacts and the `utc_now_iso()` clock reading `now`. -/
def summarize_papers (inp : SummIn) (now : String) : SummOut :=
  let pairs := (enumFrom 1 inp.papers).filterMap (summarizeOne inp)
  let summaries := pairs.map Prod.fst
  let bibliography := pairs.map Prod.snd
  { generated_at_utc := now
    manifest_path := inp.manifest_path
    assets_dir := inp.assets_dir
    corpus_summary :=
      { source_total_files := inp.source_total_files
        source_unique_files := inp.source_unique_files
        summarized_records := summaries.length
        duplicate_groups :=
          (inp.papers.filter (fun p => 0 < p.duplicate_count)).length }
    papers := summaries
    bibliography := bibliography
    validation :=
      { all_have_citations := summaries.all (fun item => item.citation != "")
        all_have_evidence :=
          summaries.all (fun item => 0 < item.evidence_anchors.length)
        all_have_equation_or_fallback :=
          summaries.all (fun item => 0 < item.key_equations.length) } }

/-! ### `publish_notion.append_blocks` -/

/-- One `publish_log` entry of `append_blocks`. -/
structure PublishLogEntry where
  event : String
  chunk_index : Nat
  chunk_size : Nat
  status_code : Nat
deriving Repr, DecidableEq

/-- The chunk loop of `append_blocks`: one `PATCH` request per chunk, a
log entry per request, hard failure on a status `≥ 300`. -/
def appendGo (resp : Nat → Nat) :
    List (Nat × List β) → List PublishLogEntry →
      Except String Unit × List PublishLogEntry
  | [], log => (.ok (), log)
  | (idx, chunk) :: rest, log =>
    let status := resp idx
    let log' := log ++ [⟨"append_chunk", idx, chunk.length, status⟩]
    if 300 ≤ status then
      (.error ("append blocks failed at chunk " ++ toString idx), log')
    else appendGo resp rest log'

/-- `publish_notion.append_blocks`: chunk the block list with
`chunked(list(blocks), 100)` and issue one request per chunk; `resp`
gives the HTTP status returned for each chunk index. -/
def append_blocks (blocks : List β) (resp : Nat → Nat) :
    Except String Unit × List PublishLogEntry :=
  match chunked blocks 100 with
  | .error e => (.error e, [])
  | .ok chunks => appendGo resp (enumFrom 1 chunks) []

theorem appendGo_all_ok (resp : Nat → Nat)
    (hresp : ∀ i, resp i < 300) (items : List (Nat × List β)) :
    ∀ log, appendGo resp items log =
      (.ok (), log ++ items.map (fun it =>
        ⟨"append_chunk", it.1, it.2.length, resp it.1⟩)) := by
  induction items with
  | nil => intro log; simp [appendGo]
  | cons it rest ih =>
    intro log
    obtain ⟨idx, chunk⟩ := it
    have h3 : ¬ 300 ≤ resp idx := Nat.not_le_of_lt (hresp idx)
    simp [appendGo, h3, ih]

/-! ### Structure lemmas about the manifest grouping -/

/-- The identity-relevant part of a record list: file names and hashes. -/
def skeleton (records : List PRecord) : List (String × String) :=
  records.map (fun r => (r.file_name, r.sha256))

theorem processFile_ok_fields (fw : FileWorld) (papersDir : String)
    (f : PFile) (staged : List String) (r : PRecord) (st' : List String)
    (h : processFile fw papersDir f staged = (.ok r, st')) :
    r.file_name = f.name ∧ r.sha256 = f.content := by
  simp only [processFile] at h
  cases hpi : fw.pdfinfo with
  | timeout =>
    rw [hpi] at h
    simp at h
  | done icode iout =>
    rw [hpi] at h
    rcases hp : probe_extractability fw f.name staged with ⟨pres, pst⟩
    rw [hp] at h
    cases pres with
    | error e => simp at h
    | ok pr =>
      simp only at h
      have h1 := congrArg Prod.fst h
      simp only at h1
      have h2 := Except.ok.inj h1
      rw [← h2]
      exact ⟨rfl, rfl⟩

theorem buildRecords_skeleton (w : String → FileWorld) (papersDir : String) :
    ∀ (fl : List PFile) (staged : List String) (recs : List PRecord)
      (st' : List String),
      buildRecords w papersDir fl staged = (.ok recs, st') →
      skeleton recs = fl.map (fun f => (f.name, f.content)) := by
  intro fl
  induction fl with
  | nil =>
    intro staged recs st' h
    simp only [buildRecords] at h
    have h1 := congrArg Prod.fst h
    simp only at h1
    have h2 := Except.ok.inj h1
    rw [← h2]
    rfl
  | cons f rest ih =>
    intro staged recs st' h
    simp only [buildRecords] at h
    rcases hp : processFile (w f.name) papersDir f staged with ⟨pres, st1⟩
    rw [hp] at h
    cases pres with
    | error e => simp at h
    | ok r =>
      simp only at h
      rcases hb : buildRecords w papersDir rest st1 with ⟨bres, st2⟩
      rw [hb] at h
      cases bres with
      | error e => simp at h
      | ok rs =>
        simp only at h
        have h1 := congrArg Prod.fst h
        simp only at h1
        have h2 := Except.ok.inj h1
        rw [← h2]
        obtain ⟨hn, hs⟩ := processFile_ok_fields (w f.name) papersDir f
          staged r st1 hp
        simp only [skeleton, List.map_cons, hn, hs]
        have := ih st1 rs st2 hb
        rw [skeleton] at this
        rw [this]

theorem build_manifest_ok (w : String → FileWorld) (now papersDir : String)
    (files : List PFile) (m : BuildOut) (fs : ManifestFS)
    (h : build_manifest w now papersDir files = (.ok m, fs)) :
    ∃ records st,
      buildRecords w papersDir (sortByB fileNameLe files) [] =
        (.ok records, st) ∧
      m = manifestCore now papersDir records := by
  unfold build_manifest at h
  rcases hb : buildRecords w papersDir (sortByB fileNameLe files) [] with
    ⟨res, st⟩
  rw [hb] at h
  cases res with
  | error e => simp at h
  | ok records =>
    simp only at h
    have h1 := congrArg Prod.fst h
    simp only at h1
    exact ⟨records, st, rfl, (Except.ok.inj h1).symm⟩

theorem enumFrom_countP (q : α → Bool) (l : List α) :
    ∀ n, (enumFrom n l).countP (fun it => q it.2) = l.countP q := by
  induction l with
  | nil => intro n; rfl
  | cons x xs ih =>
    intro n
    simp only [enumFrom, List.countP_cons, ih]

theorem groupFor_names (recs : List PRecord) (h : String) :
    (groupFor recs h).map (·.file_name) =
      ((skeleton recs).filter (fun pr => pr.2 == h)).map Prod.fst := by
  induction recs with
  | nil => rfl
  | cons r rs ih =>
    simp only [groupFor, skeleton, List.map_cons, List.filter_cons] at ih ⊢
    by_cases hr : r.sha256 == h
    · simp only [hr, if_pos]
      simp only [List.map_cons]
      rw [ih]
    · simp only [hr, Bool.false_eq_true, if_false]
      rw [ih]

theorem groupKeys_skeleton (recs : List PRecord) :
    groupKeys recs = keyOrder ((skeleton recs).map Prod.snd) := by
  unfold groupKeys skeleton
  rw [List.map_map]
  rfl

theorem count_eq_one_of_nodup_mem [DecidableEq α] {l : List α} {a : α}
    (hn : l.Nodup) (hm : a ∈ l) : l.count a = 1 :=
  Nat.le_antisymm (List.nodup_iff_count_le_one.mp hn a)
    (List.count_pos_iff.mpr hm)

theorem mem_enumFrom_snd (l : List α) :
    ∀ (n : Nat) (it : Nat × α), it ∈ enumFrom n l → it.2 ∈ l := by
  induction l with
  | nil => intro n it h; simp [enumFrom] at h
  | cons x xs ih =>
    intro n it h
    rw [enumFrom] at h
    rcases List.mem_cons.mp h with rfl | h'
    · exact List.mem_cons_self _ _
    · exact List.mem_cons_of_mem x (ih (n + 1) it h')

/-! ### Example worlds and inputs used by witnesses and counterexamples -/

instance : Inhabited BuildOut :=
  ⟨⟨⟨"", "", 0, 0, 0, [], []⟩, ⟨"", 0, 0, []⟩⟩⟩

instance : Inhabited ManifestFS := ⟨⟨false, [], false, false⟩⟩

instance : Inhabited ExtractSummary := ⟨⟨"", 0, 0, 0, []⟩⟩

/-- A manifest world in which every external tool succeeds. -/
def exWorldOK : String → FileWorld := fun _ =>
  { pdfinfo := .done 0 "Pages: 12\n"
    ptDirect := .done 0 "hello text"
    copyOk := true
    ptStaged := .done 0 "x" }

/-- A manifest world in which both text probes fail by exit status
(recorded as a status flag, not an exception). -/
def exWorldProbeFail : String → FileWorld := fun _ =>
  { pdfinfo := .done 0 "Pages: 12\n"
    ptDirect := .done 1 ""
    copyOk := true
    ptStaged := .done 1 "" }

/-- The specification's dedup example: `a.pdf`, `b.pdf` byte-identical,
`c.pdf` distinct. -/
def c1Files : List PFile :=
  [⟨"a.pdf", "C1AAAAAAAA"⟩, ⟨"b.pdf", "C1AAAAAAAA"⟩, ⟨"c.pdf", "C2BBBBBBBB"⟩]

/-- The manifest produced on the dedup example. -/
def c1Manifest : BuildOut :=
  match (build_manifest exWorldOK "2026-02-11T00:00:00Z" "P" c1Files).1 with
  | .ok m => m
  | .error _ => default

/-- A mixed-case corpus: `a.pdf` and `B.pdf` are byte-identical,
`aa.pdf` is distinct. -/
def c2Files : List PFile :=
  [⟨"B.pdf", "H1XXXXXXXX"⟩, ⟨"a.pdf", "H1XXXXXXXX"⟩, ⟨"aa.pdf", "H2YYYYYYYY"⟩]

/-- The manifest produced on the mixed-case corpus. -/
def c2Manifest : BuildOut :=
  match (build_manifest exWorldOK "2026-02-11T00:00:00Z" "P" c2Files).1 with
  | .ok m => m
  | .error _ => default

/-- The manifest produced on the mixed-case corpus by a later re-run
with failing probes. -/
def c2ManifestLater : BuildOut :=
  match (build_manifest exWorldProbeFail "2026-02-12T09:30:00Z" "P"
    c2Files).1 with
  | .ok m => m
  | .error _ => default

/-- An extraction world in which every tool succeeds (the full-text call
extracts on the first try and writes `text.txt`). -/
def exPaperWorldOK : PaperWorld :=
  { metadataExists := false
    preTextExists := false
    ftDirect := .done 0 ""
    ftDirectWrites := true
    copyOk := true
    ftStaged := .done 0 ""
    ftStagedWrites := true
    textContent := "Some text here."
    imgList := .done 0 ""
    imgExtract := .done 0 ""
    rawImages := []
    ppm := .done 1 ""
    renderedSizes := [] }

/-- A manifest row flagged `requires_staging` (so extraction stages a
copy first). -/
def exPaperStaging : MPaper :=
  ⟨"paper_001_C1AAAAAA", "a.pdf", "/R/a.pdf", "R/a.pdf", ["a.pdf"],
    "requires_staging", some 3⟩

/-- A manifest row with a directly extractable canonical file. -/
def exPaperDirect : MPaper :=
  ⟨"paper_002_C2BBBBBB", "c.pdf", "/R/c.pdf", "R/c.pdf", ["c.pdf"],
    "direct_ok", some 2⟩

/-- Extraction world: the first paper's direct `pdftotext` call hits the
subprocess timeout. -/
def c4World : String → PaperWorld := fun pid =>
  if pid = "paper_002_C2BBBBBB" then { exPaperWorldOK with ftDirect := .timeout }
  else exPaperWorldOK

/-- Extraction world: one paper's `pdftotext` fails by exit status on
both the direct and the staged path. -/
def c4WorldFail : String → PaperWorld := fun pid =>
  if pid = "paper_001_C1AAAAAA" then
    { exPaperWorldOK with ftDirect := .done 1 "", ftStaged := .done 1 "" }
  else exPaperWorldOK

/-! ### Claim theorems -/

/-- The example line of the specification (claim C7). -/
def c7Line : String := "∂ω/∂t + u·∇ω = ν∇²ω (4)"

/-- C1: files with identical byte content land in exactly one unique
record, whose `alias_file_names` lists all their file names and whose
`duplicate_count` is their number minus one; on the example corpus
(`a.pdf`, `b.pdf` identical, `c.pdf` distinct) the manifest reports
3 total files, 2 unique files, 1 duplicate group, the `a/b` record
having aliases `["a.pdf", "b.pdf"]` and duplicate count 1. -/
theorem C1_manifest_dedup_grouping :
    (∀ (w : String → FileWorld) (now papersDir : String)
      (files : List PFile) (m : BuildOut) (fs : ManifestFS),
      build_manifest w now papersDir files = (.ok m, fs) →
      ∀ c : String, (∃ f ∈ files, f.content = c) →
        (m.unique.papers.countP (fun u => u.sha256 == c) = 1 ∧
         ∀ u ∈ m.unique.papers, u.sha256 = c →
           u.alias_file_names.length =
             files.countP (fun f => f.content == c) ∧
           u.duplicate_count =
             files.countP (fun f => f.content == c) - 1 ∧
           ∀ n : String, n ∈ u.alias_file_names ↔
             ∃ f ∈ files, f.content = c ∧ f.name = n)) ∧
    ((build_manifest exWorldOK "2026-02-11T00:00:00Z" "P" c1Files).1 =
      .ok c1Manifest ∧
     c1Manifest.all.total_files = 3 ∧ c1Manifest.all.unique_files = 2 ∧
     c1Manifest.all.duplicate_groups = 1 ∧
     c1Manifest.unique.papers.map
       (fun u => (u.alias_file_names, u.duplicate_count)) =
       [(["a.pdf", "b.pdf"], 1), (["c.pdf"], 0)]) := by
  constructor
  · intro w now papersDir files m fs h c hc
    obtain ⟨records, st, hbr, hm⟩ := build_manifest_ok w now papersDir files
      m fs h
    subst hm
    have hsk : skeleton records =
        (sortByB fileNameLe files).map (fun f => (f.name, f.content)) :=
      buildRecords_skeleton w papersDir _ [] records st hbr
    have hmsha : records.map (·.sha256) =
        (sortByB fileNameLe files).map (·.content) := by
      have h2 := congrArg (List.map Prod.snd) hsk
      rw [skeleton, List.map_map, List.map_map] at h2
      exact h2
    have hmemkeys : c ∈ groupKeys records := by
      obtain ⟨f, hf, hfc⟩ := hc
      have hf' : f ∈ sortByB fileNameLe files := (mem_sortByB _ _ _).mpr hf
      have hcm : c ∈ (sortByB fileNameLe files).map (·.content) :=
        List.mem_map.mpr ⟨f, hf', hfc⟩
      rw [← hmsha] at hcm
      exact (mem_keyOrder _ _).mpr hcm
    constructor
    · -- exactly one unique record carries the hash `c`
      have e1 : (manifestCore now papersDir records).unique.papers.countP
          (fun u => u.sha256 == c) =
          (enumFrom 1 (sortByB bucketLe (groupsList records))).countP
            (fun it => it.2.1 == c) := by
        show (((enumFrom 1 (sortByB bucketLe (groupsList records))).map
          mkUnique).countP (fun u => u.sha256 == c)) = _
        rw [List.countP_map]
        rfl
      have e2 := enumFrom_countP
        (fun kv : String × List PRecord => kv.1 == c)
        (sortByB bucketLe (groupsList records)) 1
      rw [e1, e2, (sortByB_perm bucketLe (groupsList records)).countP_eq]
      have e4 : (groupsList records).countP (fun kv => kv.1 == c) =
          (groupKeys records).countP (fun h' => h' == c) := by
        unfold groupsList
        rw [List.countP_map]
        rfl
      rw [e4]
      have e5 : (groupKeys records).countP (fun h' => h' == c) =
          (groupKeys records).count c := rfl
      rw [e5]
      exact count_eq_one_of_nodup_mem (keyOrder_nodup _) hmemkeys
    · intro u hu hus
      rcases List.mem_map.mp hu with ⟨it, hit, hmk⟩
      have hit2 : it.2 ∈ sortByB bucketLe (groupsList records) :=
        mem_enumFrom_snd _ 1 it hit
      have hit3 : it.2 ∈ groupsList records := (mem_sortByB _ _ _).mp hit2
      rcases List.mem_map.mp hit3 with ⟨h', hh', hkv⟩
      have hsha : u.sha256 = it.2.1 := by
        rw [← hmk]
        rfl
      have hfst := congrArg Prod.fst hkv
      simp only at hfst
      have hh'c : h' = c := by
        rw [hfst, ← hsha, hus]
      have hit4 : it.2 = (c, groupFor records c) := by
        rw [← hkv, hh'c]
      have hsnd := congrArg Prod.snd hit4
      simp only at hsnd
      have hal : u.alias_file_names =
          (sortByB recNameLe (groupFor records c)).map (·.file_name) := by
        rw [← hmk]
        show (sortByB recNameLe it.2.2).map (·.file_name) = _
        rw [hsnd]
      have hcnt : (groupFor records c).length =
          files.countP (fun f => f.content == c) := by
        unfold groupFor
        rw [← List.countP_eq_length_filter]
        have e7 : records.countP (fun r => r.sha256 == c) =
            (skeleton records).countP (fun pr => pr.2 == c) := by
          unfold skeleton
          rw [List.countP_map]
          rfl
        rw [e7, hsk, List.countP_map]
        exact (sortByB_perm fileNameLe files).countP_eq _
      have hlen : u.alias_file_names.length =
          files.countP (fun f => f.content == c) := by
        rw [hal, List.length_map, sortByB_length, hcnt]
      have hdup : u.duplicate_count = u.alias_file_names.length - 1 := by
        rw [← hmk]
        rfl
      refine ⟨hlen, by rw [hdup, hlen], ?_⟩
      intro n
      have hmem1 : n ∈ u.alias_file_names ↔ (n, c) ∈ skeleton records := by
        rw [hal]
        rw [((sortByB_perm recNameLe (groupFor records c)).map
          (·.file_name)).mem_iff]
        constructor
        · intro hn
          rcases List.mem_map.mp hn with ⟨r, hr, hrn⟩
          have hrf := List.mem_filter.mp hr
          refine List.mem_map.mpr ⟨r, hrf.1, ?_⟩
          have hrc : r.sha256 = c := by
            have := hrf.2
            simpa using this
          rw [hrn, hrc]
        · intro hn
          rcases List.mem_map.mp hn with ⟨r, hr, hpr⟩
          have h1 := congrArg Prod.fst hpr
          have h2 := congrArg Prod.snd hpr
          simp only at h1 h2
          refine List.mem_map.mpr ⟨r, List.mem_filter.mpr ⟨hr, ?_⟩, h1⟩
          simpa using h2
      rw [hmem1, hsk]
      constructor
      · intro hn
        rcases List.mem_map.mp hn with ⟨f, hf, hpf⟩
        have h1 := congrArg Prod.fst hpf
        have h2 := congrArg Prod.snd hpf
        simp only at h1 h2
        exact ⟨f, (mem_sortByB _ _ _).mp hf, h2, h1⟩
      · rintro ⟨f, hf, hfc, hfn⟩
        exact List.mem_map.mpr ⟨f, (mem_sortByB _ _ _).mpr hf,
          by rw [hfn, hfc]⟩
  · exact ⟨rfl, rfl, rfl, rfl, by decide⟩

/-- Witness for C1 on the example corpus and the shared content of
`a.pdf`/`b.pdf`. -/
theorem C1_manifest_dedup_grouping_witness :
    c1Manifest.unique.papers.countP
      (fun u => u.sha256 == "C1AAAAAAAA") = 1 ∧
    ∀ u ∈ c1Manifest.unique.papers, u.sha256 = "C1AAAAAAAA" →
      u.alias_file_names.length =
        c1Files.countP (fun f => f.content == "C1AAAAAAAA") ∧
      u.duplicate_count =
        c1Files.countP (fun f => f.content == "C1AAAAAAAA") - 1 ∧
      ∀ n : String, n ∈ u.alias_file_names ↔
        ∃ f ∈ c1Files, f.content = "C1AAAAAAAA" ∧ f.name = n := by
  exact C1_manifest_dedup_grouping.1 exWorldOK "2026-02-11T00:00:00Z" "P"
    c1Files c1Manifest
    (build_manifest exWorldOK "2026-02-11T00:00:00Z" "P" c1Files).2
    (by rfl) "C1AAAAAAAA" ⟨⟨"a.pdf", "C1AAAAAAAA"⟩, by decide, rfl⟩

theorem enumFrom_map (f : α → β) (l : List α) :
    ∀ n, (enumFrom n l).map (fun it => (it.1, f it.2)) =
      enumFrom n (l.map f) := by
  induction l with
  | nil => intro n; rfl
  | cons x xs ih =>
    intro n
    simp only [enumFrom, List.map_cons, ih]

theorem enumFrom_length (l : List α) : ∀ n, (enumFrom n l).length = l.length
  := by
  induction l with
  | nil => intro n; rfl
  | cons x xs ih => intro n; simp [enumFrom, ih]

theorem enumFrom_chain' (S : α → α → Prop) :
    ∀ (l : List α) (n : Nat), List.Chain' S l →
      List.Chain' (fun a b : Nat × α => S a.2 b.2) (enumFrom n l) := by
  intro l
  induction l with
  | nil => intro n _; simp [enumFrom]
  | cons x xs ih =>
    intro n hch
    cases xs with
    | nil => simp [enumFrom]
    | cons y ys =>
      rw [enumFrom, enumFrom]
      refine List.chain'_cons.mpr ⟨?_, ?_⟩
      · exact (List.chain'_cons.mp hch).1
      · rw [← enumFrom]
        exact ih (n + 1) hch.tail

theorem sortByB_strings_perm_eq (l₁ l₂ : List String) (h : l₁.Perm l₂) :
    sortByB pyStrLe l₁ = sortByB pyStrLe l₂ := by
  have hs₁ : List.Sorted strLeP (sortByB pyStrLe l₁) :=
    List.chain'_iff_pairwise.mp
      (sortByB_chain pyStrLe pyStrLe_total l₁)
  have hs₂ : List.Sorted strLeP (sortByB pyStrLe l₂) :=
    List.chain'_iff_pairwise.mp
      (sortByB_chain pyStrLe pyStrLe_total l₂)
  exact List.eq_of_perm_of_sorted
    ((sortByB_perm _ l₁).trans (h.trans (sortByB_perm _ l₂).symm)) hs₁ hs₂

theorem bucketKey_perm (n₁ n₂ : List String) (h : n₁.Perm n₂) :
    bucketKey n₁ = bucketKey n₂ := by
  unfold bucketKey
  rw [sortByB_strings_perm_eq n₁ n₂ h]

/-- The `(paper_seq, paper_id, sha256)` triples of the unique records, as
a function of the name/hash skeleton alone. -/
def idTriples (sk : List (String × String)) :
    List (Nat × String × String) :=
  (enumFrom 1 (sortByB (fun a b => pyStrLe (bucketKey a.2) (bucketKey b.2))
    ((keyOrder (sk.map Prod.snd)).map (fun h =>
      (h, (sk.filter (fun pr => pr.2 == h)).map Prod.fst))))).map
    (fun it => (it.1, "paper_" ++ pad3 it.1 ++ "_" ++ pyTake it.2.1 8,
      it.2.1))

theorem papers_idTriples (now papersDir : String) (recs : List PRecord) :
    (manifestCore now papersDir recs).unique.papers.map
      (fun u => (u.paper_seq, u.paper_id, u.sha256)) =
    idTriples (skeleton recs) := by
  show ((enumFrom 1 (sortByB bucketLe (groupsList recs))).map mkUnique).map
    (fun u => (u.paper_seq, u.paper_id, u.sha256)) = _
  rw [List.map_map]
  have hGf : (groupsList recs).map
      (fun kv => (kv.1, kv.2.map (·.file_name))) =
      (keyOrder ((skeleton recs).map Prod.snd)).map (fun h =>
        (h, ((skeleton recs).filter (fun pr => pr.2 == h)).map Prod.fst))
      := by
    unfold groupsList
    rw [List.map_map, groupKeys_skeleton]
    apply List.map_congr_left
    intro h' _
    show (h', (groupFor recs h').map (·.file_name)) = _
    rw [groupFor_names]
  have hf : ∀ a b : String × List PRecord, bucketLe a b =
      (fun a b : String × List String =>
        pyStrLe (bucketKey a.2) (bucketKey b.2))
        ((fun kv : String × List PRecord =>
          (kv.1, kv.2.map (·.file_name))) a)
        ((fun kv : String × List PRecord =>
          (kv.1, kv.2.map (·.file_name))) b) :=
    fun a b => rfl
  have hsort := sortByB_map bucketLe
    (fun a b : String × List String =>
      pyStrLe (bucketKey a.2) (bucketKey b.2))
    (fun kv : String × List PRecord => (kv.1, kv.2.map (·.file_name)))
    hf (groupsList recs)
  have hkey := enumFrom_map
    (fun kv : String × List PRecord => (kv.1, kv.2.map (·.file_name)))
    (sortByB bucketLe (groupsList recs)) 1
  rw [hsort] at hkey
  unfold idTriples
  rw [← hGf, ← hkey, List.map_map]
  rfl

/-- The claim's bucket key: the case-insensitive minimum file name of
the bucket (the minimum of the lowercased names). -/
def ciMinKey (names : List String) : String :=
  (sortByB pyStrLe (names.map pyLower)).headD ""

/-- Counterexample to C2 as stated: on a corpus where `a.pdf` and
`B.pdf` are byte-identical and `aa.pdf` is distinct, the code orders the
buckets by `sorted(names)[0].lower()` — the case-sensitive minimum,
lowercased (`"B.pdf"` sorts before `"a.pdf"`, giving key `"b.pdf"`), so
the `aa.pdf` bucket gets `paper_001` and the `a/B` bucket `paper_002`,
while ordering by the case-insensitive minimum (`"a.pdf" < "aa.pdf"`)
would put the `a/B` bucket first. -/
theorem C2_bucket_order_counterexample :
    (build_manifest exWorldOK "2026-02-11T00:00:00Z" "P" c2Files).1 =
      .ok c2Manifest ∧
    c2Manifest.unique.papers.map (fun u => ciMinKey u.alias_file_names) =
      ["aa.pdf", "a.pdf"] ∧
    ¬ List.Chain' (fun a b => pyStrLe (ciMinKey a.alias_file_names)
        (ciMinKey b.alias_file_names) = true) c2Manifest.unique.papers ∧
    c2Manifest.unique.papers.map (fun u => u.paper_seq) = [1, 2] := by
  refine ⟨rfl, by decide, ?_, by decide⟩
  intro hchain
  have h2 : c2Manifest.unique.papers.map
      (fun u => ciMinKey u.alias_file_names) = ["aa.pdf", "a.pdf"] := by
    decide
  have hch2 : List.Chain' (fun a b => pyStrLe a b = true)
      (c2Manifest.unique.papers.map (fun u => ciMinKey u.alias_file_names))
      := (List.chain'_map _).mpr hchain
  rw [h2] at hch2
  have := (List.chain'_cons.mp hch2).1
  exact absurd this (by decide)

/-- C2 (amended): `paper_id` sequence numbers are exactly `1..N` in
bucket order; buckets are ordered by the *lowercased case-sensitive
minimum* file name among their members (`sorted(names)[0].lower()`),
not the case-insensitive minimum; and the ordering — hence every
`paper_id` — is a deterministic function of the input files alone:
re-running on unchanged input, with any tool world and clock, yields
identical `paper_id` values. -/
theorem C2_bucket_order_amended (w₁ w₂ : String → FileWorld)
    (now₁ now₂ pd₁ pd₂ : String) (files : List PFile) (m₁ m₂ : BuildOut)
    (fs₁ fs₂ : ManifestFS)
    (h₁ : build_manifest w₁ now₁ pd₁ files = (.ok m₁, fs₁))
    (h₂ : build_manifest w₂ now₂ pd₂ files = (.ok m₂, fs₂)) :
    m₁.unique.papers.map (fun u => u.paper_seq) =
      List.range' 1 m₁.unique.papers.length ∧
    List.Chain' (fun a b => pyStrLe (bucketKey a.alias_file_names)
      (bucketKey b.alias_file_names) = true) m₁.unique.papers ∧
    m₁.unique.papers.map (fun u => u.paper_id) =
      m₂.unique.papers.map (fun u => u.paper_id) ∧
    m₁.unique.papers.map (fun u => u.paper_seq) =
      m₂.unique.papers.map (fun u => u.paper_seq) := by
  obtain ⟨recs₁, st₁, hbr₁, hm₁⟩ := build_manifest_ok w₁ now₁ pd₁ files m₁
    fs₁ h₁
  obtain ⟨recs₂, st₂, hbr₂, hm₂⟩ := build_manifest_ok w₂ now₂ pd₂ files m₂
    fs₂ h₂
  have hskeq : skeleton recs₁ = skeleton recs₂ := by
    rw [buildRecords_skeleton w₁ pd₁ _ [] recs₁ st₁ hbr₁,
      buildRecords_skeleton w₂ pd₂ _ [] recs₂ st₂ hbr₂]
  subst hm₁
  subst hm₂
  refine ⟨?_, ?_, ?_, ?_⟩
  · -- sequence numbers are 1..N
    have e1 : (manifestCore now₁ pd₁ recs₁).unique.papers.map
        (fun u => u.paper_seq) =
        (enumFrom 1 (sortByB bucketLe (groupsList recs₁))).map Prod.fst
        := by
      show ((enumFrom 1 (sortByB bucketLe (groupsList recs₁))).map
        mkUnique).map (fun u => u.paper_seq) = _
      rw [List.map_map]
      rfl
    have e2 : (manifestCore now₁ pd₁ recs₁).unique.papers.length =
        (sortByB bucketLe (groupsList recs₁)).length := by
      show ((enumFrom 1 (sortByB bucketLe (groupsList recs₁))).map
        mkUnique).length = _
      rw [List.length_map, enumFrom_length]
    rw [e1, e2, enumFrom_map_fst]
  · -- sortedness by the lowercased case-sensitive minimum alias
    have hch : List.Chain' (fun a b => bucketLe a b = true)
        (sortByB bucketLe (groupsList recs₁)) :=
      sortByB_chain bucketLe (fun a b => pyStrLe_total _ _) _
    have hch2 := enumFrom_chain' (fun a b => bucketLe a b = true) _ 1 hch
    have hch3 : List.Chain' (fun a b : Nat × String × List PRecord =>
        pyStrLe (bucketKey ((mkUnique a).alias_file_names))
          (bucketKey ((mkUnique b).alias_file_names)) = true)
        (enumFrom 1 (sortByB bucketLe (groupsList recs₁))) := by
      refine hch2.imp ?_
      intro a b hab
      have ha : bucketKey ((mkUnique a).alias_file_names) =
          bucketKey (a.2.2.map (·.file_name)) := by
        show bucketKey ((sortByB recNameLe a.2.2).map (·.file_name)) = _
        exact bucketKey_perm _ _ ((sortByB_perm recNameLe a.2.2).map _)
      have hb : bucketKey ((mkUnique b).alias_file_names) =
          bucketKey (b.2.2.map (·.file_name)) := by
        show bucketKey ((sortByB recNameLe b.2.2).map (·.file_name)) = _
        exact bucketKey_perm _ _ ((sortByB_perm recNameLe b.2.2).map _)
      rw [ha, hb]
      exact hab
    exact (List.chain'_map mkUnique).mpr hch3
  · -- paper ids are a function of the skeleton
    calc (manifestCore now₁ pd₁ recs₁).unique.papers.map
          (fun u => u.paper_id)
        = ((manifestCore now₁ pd₁ recs₁).unique.papers.map
            (fun u => (u.paper_seq, u.paper_id, u.sha256))).map
            (fun t => t.2.1) := by
          rw [List.map_map]
          rfl
      _ = (idTriples (skeleton recs₁)).map (fun t => t.2.1) := by
          rw [papers_idTriples]
      _ = (idTriples (skeleton recs₂)).map (fun t => t.2.1) := by
          rw [hskeq]
      _ = ((manifestCore now₂ pd₂ recs₂).unique.papers.map
            (fun u => (u.paper_seq, u.paper_id, u.sha256))).map
            (fun t => t.2.1) := by
          rw [papers_idTriples]
      _ = (manifestCore now₂ pd₂ recs₂).unique.papers.map
            (fun u => u.paper_id) := by
          rw [List.map_map]
          rfl
  · calc (manifestCore now₁ pd₁ recs₁).unique.papers.map
          (fun u => u.paper_seq)
        = ((manifestCore now₁ pd₁ recs₁).unique.papers.map
            (fun u => (u.paper_seq, u.paper_id, u.sha256))).map
            (fun t => t.1) := by
          rw [List.map_map]
          rfl
      _ = (idTriples (skeleton recs₁)).map (fun t => t.1) := by
          rw [papers_idTriples]
      _ = (idTriples (skeleton recs₂)).map (fun t => t.1) := by
          rw [hskeq]
      _ = ((manifestCore now₂ pd₂ recs₂).unique.papers.map
            (fun u => (u.paper_seq, u.paper_id, u.sha256))).map
            (fun t => t.1) := by
          rw [papers_idTriples]
      _ = (manifestCore now₂ pd₂ recs₂).unique.papers.map
            (fun u => u.paper_seq) := by
          rw [List.map_map]
          rfl

/-- Witness for C2's amended theorem: two runs on the mixed-case corpus
under different worlds and clock readings give the same (sorted, 1..N)
paper identifiers. -/
theorem C2_bucket_order_amended_witness :
    c2Manifest.unique.papers.map (fun u => u.paper_seq) =
      List.range' 1 c2Manifest.unique.papers.length ∧
    List.Chain' (fun a b => pyStrLe (bucketKey a.alias_file_names)
      (bucketKey b.alias_file_names) = true) c2Manifest.unique.papers ∧
    c2Manifest.unique.papers.map (fun u => u.paper_id) =
      c2ManifestLater.unique.papers.map (fun u => u.paper_id) ∧
    c2Manifest.unique.papers.map (fun u => u.paper_seq) =
      c2ManifestLater.unique.papers.map (fun u => u.paper_seq) := by
  exact C2_bucket_order_amended exWorldOK exWorldProbeFail
    "2026-02-11T00:00:00Z" "2026-02-12T09:30:00Z" "P" "P" c2Files
    c2Manifest c2ManifestLater
    (build_manifest exWorldOK "2026-02-11T00:00:00Z" "P" c2Files).2
    (build_manifest exWorldProbeFail "2026-02-12T09:30:00Z" "P" c2Files).2
    (by rfl) (by rfl)

/-- C7: under the equation-candidate scoring rules, the line
`"∂ω/∂t + u·∇ω = ν∇²ω (4)"` scores at least 6 (it scores exactly 6:
physics token `"u"` +1, trailing `(4)` +2, unicode operators +2,
arithmetic operators +1 — the ASCII derivative keywords do not occur in
the unicode line), and on a page carrying it the line appears in the kept
equation-candidate list. -/
theorem C7_equation_line_scored_and_kept :
    6 ≤ equationLineScore c7Line ∧
    extract_equation_candidates [c7Line] = [⟨c7Line, 1, 6⟩] ∧
    c7Line ∈ (extract_equation_candidates [c7Line]).map (·.equation) := by
  refine ⟨by decide, by decide, by decide⟩

/-- C8: the figure keep/reject decision is a pure function of the
image-list row and the file size; a 100×100 px image of 12 KB is
rejected as `too_small_dimensions`, and a 500×500 px image of 60 KB on
page 5 is kept. -/
theorem C8_figure_filter :
    should_keep_image ⟨1, 1, "image", 100, 100⟩ 12288 =
      (false, "too_small_dimensions") ∧
    should_keep_image ⟨5, 2, "image", 500, 500⟩ 61440 = (true, "kept") ∧
    (∀ (r₁ r₂ : ImgRow) (s₁ s₂ : Nat), r₁ = r₂ → s₁ = s₂ →
      should_keep_image r₁ s₁ = should_keep_image r₂ s₂) := by
  refine ⟨by decide, by decide, ?_⟩
  intro r₁ r₂ s₁ s₂ hr hs
  rw [hr, hs]

/-- Witness for C8 at a concrete row and size. -/
theorem C8_figure_filter_witness :
    should_keep_image ⟨5, 2, "image", 500, 500⟩ 61440 =
      should_keep_image ⟨5, 2, "image", 500, 500⟩ 61440 :=
  C8_figure_filter.2.2 ⟨5, 2, "image", 500, 500⟩ ⟨5, 2, "image", 500, 500⟩
    61440 61440 rfl rfl

/-- C9: `append_blocks` partitions any block list into consecutive
chunks of exactly 100 blocks plus a final chunk of `N mod 100` when `N`
is not a multiple of 100, issuing one request per chunk in order; in
particular 250 blocks yield exactly the three request sizes
100, 100, 50. -/
theorem C9_append_chunking :
    (∀ (blocks : List Nat),
      chunked blocks 100 = .ok (chunksOf 100 blocks) ∧
      (chunksOf 100 blocks).flatten = blocks ∧
      (chunksOf 100 blocks).map List.length =
        List.replicate (blocks.length / 100) 100 ++
          (if blocks.length % 100 = 0 then [] else [blocks.length % 100])) ∧
    (∀ (blocks : List Nat) (resp : Nat → Nat), (∀ i, resp i < 300) →
      (append_blocks blocks resp).1 = .ok () ∧
      (append_blocks blocks resp).2.map (·.chunk_size) =
        (chunksOf 100 blocks).map List.length ∧
      (append_blocks blocks resp).2.map (·.chunk_index) =
        List.range' 1 (chunksOf 100 blocks).length) ∧
    (chunksOf 100 (List.range 250)).map List.length = [100, 100, 50] := by
  refine ⟨?_, ?_, ?_⟩
  case refine_3 =>
    rw [chunksOf_map_length 100 (by decide)]
    simp only [List.length_range]
    decide
  · intro blocks
    exact ⟨rfl, chunksOf_flatten 100 (by decide) blocks,
      chunksOf_map_length 100 (by decide) blocks⟩
  · intro blocks resp hresp
    have h : append_blocks blocks resp =
        (.ok (), (enumFrom 1 (chunksOf 100 blocks)).map (fun it =>
          ⟨"append_chunk", it.1, it.2.length, resp it.1⟩)) := by
      unfold append_blocks chunked
      simp only [if_neg (by decide : ¬ (100 = 0))]
      rw [appendGo_all_ok resp hresp]
      simp
    rw [h]
    refine ⟨rfl, ?_, ?_⟩
    · rw [List.map_map]
      have : ((fun e : PublishLogEntry => e.chunk_size) ∘ fun it :
          Nat × List Nat => (⟨"append_chunk", it.1, it.2.length, resp it.1⟩ :
            PublishLogEntry)) = fun it : Nat × List Nat => it.2.length := rfl
      rw [this]
      have h2 : (fun it : Nat × List Nat => it.2.length) =
          List.length ∘ Prod.snd := rfl
      rw [h2, ← List.map_map, enumFrom_map_snd]
    · rw [List.map_map]
      have : ((fun e : PublishLogEntry => e.chunk_index) ∘ fun it :
          Nat × List Nat => (⟨"append_chunk", it.1, it.2.length, resp it.1⟩ :
            PublishLogEntry)) = Prod.fst := rfl
      rw [this, enumFrom_map_fst]

instance : Inhabited Metadata :=
  ⟨{ paper_id := "", canonical_file_name := "", canonical_relative_path := ""
     alias_file_names := [], title := "", doi := "", journal := ""
     year := "", authors := [], url := "", ris_matched := false
     extract_title_source := "", extract_doi_source := ""
     repo_relative_pdf := "", vancouver_citation := "" }⟩

instance : Inhabited SAssets :=
  ⟨{ metadataExists := false, metadata := default, textContent := none
     equations := none, figures := none }⟩

/-- A minimal summarizer input (empty corpus). -/
def exSummIn : SummIn :=
  { manifest_path := "m", assets_dir := "a"
    source_total_files := some 0, source_unique_files := some 0
    papers := [], assets := fun _ => default }

/-- Counterexample to C3 as stated: two runs of `summarize_papers` over
the same extraction input differ byte-for-byte, because the output embeds
the `utc_now_iso()` clock reading in `generated_at_utc`. -/
theorem C3_byte_identical_counterexample :
    summarize_papers exSummIn "2026-02-11T00:00:00Z" ≠
      summarize_papers exSummIn "2026-02-11T00:00:01Z" := by
  intro h
  have h2 := congrArg SummOut.generated_at_utc h
  exact absurd h2 (by decide)

/-- C3 (amended): apart from the `generated_at_utc` timestamp, the corpus
JSON is a pure function of the extraction artifacts — every other field
is identical across runs over identical input. -/
theorem C3_pure_modulo_timestamp (inp : SummIn) (t₁ t₂ : String) :
    (summarize_papers inp t₁).papers = (summarize_papers inp t₂).papers ∧
    (summarize_papers inp t₁).bibliography =
      (summarize_papers inp t₂).bibliography ∧
    (summarize_papers inp t₁).validation =
      (summarize_papers inp t₂).validation ∧
    (summarize_papers inp t₁).corpus_summary =
      (summarize_papers inp t₂).corpus_summary ∧
    (summarize_papers inp t₁).manifest_path =
      (summarize_papers inp t₂).manifest_path ∧
    (summarize_papers inp t₁).assets_dir =
      (summarize_papers inp t₂).assets_dir := by
  exact ⟨rfl, rfl, rfl, rfl, rfl, rfl⟩

/-- Counterexample to C5 as stated: when the papers directory is missing,
`main` does raise `SystemExit`, but the output directory has already been
created (`ensure_dir(args.out_dir.resolve())` runs before the existence
check), so the abort is not free of I/O. -/
theorem C5_outdir_created_counterexample :
    (build_manifest_main false exWorldOK "2026-02-11T00:00:00Z"
      "Research Papers" []).1 = .error .systemExit ∧
    (build_manifest_main false exWorldOK "2026-02-11T00:00:00Z"
      "Research Papers" []).2.outDirCreated = true := ⟨rfl, rfl⟩

/-- C5 (amended): with a missing papers directory, `main` aborts with
`SystemExit` before probing any file or writing any manifest — the only
prior side effect is the creation of the (empty) output directory. -/
theorem C5_abort_before_manifest_io (w : String → FileWorld)
    (now papersDir : String) (files : List PFile) :
    (build_manifest_main false w now papersDir files).1 =
      .error .systemExit ∧
    (build_manifest_main false w now papersDir files).2.inner.manifestAllWritten
      = false ∧
    (build_manifest_main false w now papersDir files).2.inner.manifestUniqueWritten
      = false ∧
    (build_manifest_main false w now papersDir files).2.inner.tempProbeDirExists
      = false ∧
    (build_manifest_main false w now papersDir files).2.inner.tempProbeFiles
      = [] ∧
    (build_manifest_main false w now papersDir files).2.outDirCreated = true :=
  ⟨rfl, rfl, rfl, rfl, rfl, rfl⟩

/-- Counterexample to C6 as stated: a fully successful `extract_assets`
run that stages a copy leaves the staged PDF in `out_dir/staging` when
the stage ends — the staging directory is never cleaned up. -/
theorem C6_staging_left_counterexample :
    (extract_assets (fun _ => exPaperWorldOK) "2026-02-11T00:00:00Z" "OUT"
      [exPaperStaging] none false).1.isOk = true ∧
    (extract_assets (fun _ => exPaperWorldOK) "2026-02-11T00:00:00Z" "OUT"
      [exPaperStaging] none false).2.stagingFiles =
      ["paper_001_C1AAAAAA.pdf"] := ⟨rfl, rfl⟩

/-- C6 (amended): `build_manifest`'s own staging directory
(`out_dir/temp_probe`) is removed, with its staged copies, whenever the
function completes normally — including runs whose probes fail by exit
status; only an escaping exception (a tool timeout) skips the cleanup,
and `extract_assets`' staging directory is not cleaned at all. -/
theorem C6_temp_probe_cleanup (w : String → FileWorld)
    (now papersDir : String) (files : List PFile) (m : BuildOut)
    (fs : ManifestFS)
    (h : build_manifest w now papersDir files = (.ok m, fs)) :
    fs.tempProbeDirExists = false ∧ fs.tempProbeFiles = [] := by
  unfold build_manifest at h
  rcases hb : buildRecords w papersDir (sortByB fileNameLe files) [] with
    ⟨res, st⟩
  rw [hb] at h
  cases res with
  | error e => simp at h
  | ok records =>
    simp only at h
    have hfs := congrArg Prod.snd h
    simp only at hfs
    rw [← hfs]
    exact ⟨rfl, rfl⟩

/-- Witness for C6's amended theorem: a run whose probes all fail by
exit status still completes and removes the staging probe directory. -/
theorem C6_temp_probe_cleanup_witness :
    (build_manifest exWorldProbeFail "2026-02-11T00:00:00Z" "P"
      c1Files).2.tempProbeDirExists = false ∧
    (build_manifest exWorldProbeFail "2026-02-11T00:00:00Z" "P"
      c1Files).2.tempProbeFiles = [] := by
  exact C6_temp_probe_cleanup exWorldProbeFail "2026-02-11T00:00:00Z" "P"
    c1Files
    (match h : (build_manifest exWorldProbeFail "2026-02-11T00:00:00Z" "P"
      c1Files).1 with
     | .ok m => m
     | .error _ => default)
    (build_manifest exWorldProbeFail "2026-02-11T00:00:00Z" "P" c1Files).2
    (by rfl)

/-- No tool call of one paper's extraction hits the subprocess timeout. -/
def noTimeouts (pw : PaperWorld) : Prop :=
  pw.ftDirect ≠ .timeout ∧ pw.ftStaged ≠ .timeout ∧
    pw.imgList ≠ .timeout ∧ pw.imgExtract ≠ .timeout ∧ pw.ppm ≠ .timeout

/-- Full-text extraction fails by exit status on both candidate paths. -/
def bothTextCallsFail (pw : PaperWorld) : Prop :=
  (∀ c o, pw.ftDirect = .done c o → c ≠ 0) ∧
    (∀ c o, pw.ftStaged = .done c o → c ≠ 0)

theorem tryCandidate_no_timeout (pw : PaperWorld) (sc : Bool)
    (sn : String) (staging : List String) (te : Bool)
    (hc : pw.copyOk = true) (hnt : noTimeouts pw) :
    ∃ r st', tryCandidate pw sc sn staging te = (.ok r, st') := by
  obtain ⟨hd, hs, -, -, -⟩ := hnt
  cases sc with
  | true =>
    cases hst : pw.ftStaged with
    | timeout => exact absurd hst hs
    | done code out =>
      exact ⟨(decide (code = 0) && (te || pw.ftStagedWrites),
          te || pw.ftStagedWrites),
        if sn ∈ staging then staging else staging ++ [sn],
        by simp [tryCandidate, hc, hst]⟩
  | false =>
    cases hdr : pw.ftDirect with
    | timeout => exact absurd hdr hd
    | done code out =>
      exact ⟨(decide (code = 0) && (te || pw.ftDirectWrites),
          te || pw.ftDirectWrites), staging,
        by simp [tryCandidate, hdr]⟩

theorem tryCandidate_fail (pw : PaperWorld) (sc : Bool)
    (sn : String) (staging : List String) (te : Bool)
    (hc : pw.copyOk = true) (hnt : noTimeouts pw)
    (hfail : bothTextCallsFail pw) :
    ∃ te' st', tryCandidate pw sc sn staging te = (.ok (false, te'), st') := by
  obtain ⟨hd, hs, -, -, -⟩ := hnt
  cases sc with
  | true =>
    cases hst : pw.ftStaged with
    | timeout => exact absurd hst hs
    | done code out =>
      have hcz : code ≠ 0 := hfail.2 code out hst
      exact ⟨te || pw.ftStagedWrites,
        if sn ∈ staging then staging else staging ++ [sn],
        by simp [tryCandidate, hc, hst, hcz]⟩
  | false =>
    cases hdr : pw.ftDirect with
    | timeout => exact absurd hdr hd
    | done code out =>
      have hcz : code ≠ 0 := hfail.1 code out hdr
      exact ⟨te || pw.ftDirectWrites, staging,
        by simp [tryCandidate, hdr, hcz]⟩

theorem extract_full_text_no_timeout (pw : PaperWorld) (sn : String)
    (ps : Bool) (staging : List String) (pre : Bool)
    (hc : pw.copyOk = true) (hnt : noTimeouts pw) :
    ∃ res st', extract_full_text pw sn ps staging pre = (.ok res, st') := by
  rcases hx : extract_full_text pw sn ps staging pre with ⟨res, st'⟩
  cases res with
  | ok r => exact ⟨r, st', rfl⟩
  | error e =>
    exfalso
    obtain ⟨⟨ok1, te1⟩, st1, h1⟩ := tryCandidate_no_timeout pw ps sn staging
      pre hc hnt
    simp only [extract_full_text] at hx
    rw [h1] at hx
    cases ok1 with
    | true => simp at hx
    | false =>
      simp only [Bool.false_eq_true, if_false] at hx
      obtain ⟨⟨ok2, te2⟩, st2, h2⟩ := tryCandidate_no_timeout pw (!ps) sn st1
        te1 hc hnt
      rw [h2] at hx
      cases ok2 <;> simp at hx

theorem extract_full_text_fail (pw : PaperWorld) (sn : String)
    (ps : Bool) (staging : List String) (pre : Bool)
    (hc : pw.copyOk = true) (hnt : noTimeouts pw)
    (hfail : bothTextCallsFail pw) :
    ∃ st', extract_full_text pw sn ps staging pre =
      (.ok (false, "failed on direct and staged path", false), st') := by
  obtain ⟨te1, st1, h1⟩ := tryCandidate_fail pw ps sn staging pre hc hnt hfail
  obtain ⟨te2, st2, h2⟩ := tryCandidate_fail pw (!ps) sn st1 te1 hc hnt hfail
  refine ⟨st2, ?_⟩
  rw [extract_full_text, h1]
  simp only [Bool.false_eq_true, if_false]
  rw [h2]
  rfl

theorem extract_figures_no_timeout (pw : PaperWorld) (figuresDir : String)
    (pages_count : Nat) (hnt : noTimeouts pw) :
    ∃ s, extract_figures pw figuresDir pages_count = .ok s := by
  obtain ⟨-, -, hl, he, hp⟩ := hnt
  cases hx : extract_figures pw figuresDir pages_count with
  | ok s => exact ⟨s, rfl⟩
  | error e =>
    exfalso
    cases hll : pw.imgList with
    | timeout => exact absurd hll hl
    | done lcode lout =>
      cases hee : pw.imgExtract with
      | timeout => exact absurd hee he
      | done ecode eout =>
        cases hpp : pw.ppm with
        | timeout => exact absurd hpp hp
        | done rcode rout =>
          rw [extract_figures, hll] at hx
          simp only at hx
          rw [hee] at hx
          simp only [hpp] at hx
          split at hx
          · rename_i heq
            split at heq <;> split at heq <;> simp at heq
          · simp at hx

theorem processPaper_no_timeout (pw : PaperWorld) (now outDir : String)
    (bd bt : List (String × RisEntry)) (force : Bool) (p : MPaper)
    (fs : ExtractFS) (hc : pw.copyOk = true) (hnt : noTimeouts pw) :
    ∃ row fs', processPaper pw now outDir bd bt force p fs =
        (.ok row, fs') ∧
      row.paper_id = p.paper_id ∧
      (pw.metadataExists ∧ ¬ force → row.status = "skipped") ∧
      (¬ (pw.metadataExists ∧ ¬ force) →
        row.status = "processed" ∧
        (bothTextCallsFail pw → row.text_extracted = some false)) := by
  by_cases hskip : pw.metadataExists ∧ ¬ force
  · refine ⟨⟨p.paper_id, "skipped", none, none, none, none⟩, fs, ?_, rfl,
      fun _ => rfl, fun h => absurd hskip h⟩
    simp only [processPaper, if_pos hskip]
  · obtain ⟨res, st', hft⟩ := extract_full_text_no_timeout pw
      (p.paper_id ++ ".pdf")
      (pyLower p.extractability_status = "requires_staging")
      fs.stagingFiles (if force then false else pw.preTextExists) hc hnt
    obtain ⟨ok_text, text_mode, workingStaged⟩ := res
    obtain ⟨figsum, hfig⟩ := extract_figures_no_timeout pw
      (outDir ++ "/papers/" ++ p.paper_id ++ "/figures")
      (match p.pages with
       | some (n + 1) => n + 1
       | _ =>
         (if ok_text then
           split_pages_from_pdftotext (if ok_text then pw.textContent else "")
         else []).length) hnt
    have hokfalse : bothTextCallsFail pw → ok_text = false := by
      intro hfail
      obtain ⟨st2, hft2⟩ := extract_full_text_fail pw (p.paper_id ++ ".pdf")
        (pyLower p.extractability_status = "requires_staging")
        fs.stagingFiles (if force then false else pw.preTextExists) hc hnt
        hfail
      rw [hft] at hft2
      have h1 := congrArg Prod.fst hft2
      simp only at h1
      exact congrArg Prod.fst (Except.ok.inj h1)
    rcases hx : processPaper pw now outDir bd bt force p fs with ⟨res2, fs'⟩
    have hx' := hx
    simp only [processPaper, if_neg hskip] at hx'
    rw [hft] at hx'
    simp only at hx'
    rw [hfig] at hx'
    simp only at hx'
    cases res2 with
    | error e =>
      exfalso
      have h1 := congrArg Prod.fst hx'
      simp at h1
    | ok row =>
      have h1 := congrArg Prod.fst hx'
      simp only at h1
      have hrow := Except.ok.inj h1
      refine ⟨row, fs', rfl, ?_, fun h => absurd h hskip, fun _ => ⟨?_, ?_⟩⟩
      · rw [← hrow]
      · rw [← hrow]
      · intro hfail
        rw [← hrow]
        simp [hokfalse hfail]

theorem extractLoop_no_timeout (w : String → PaperWorld)
    (now outDir : String) (bd bt : List (String × RisEntry)) (force : Bool)
    (papers : List MPaper)
    (hc : ∀ pid, (w pid).copyOk = true)
    (hnt : ∀ pid, noTimeouts (w pid)) :
    ∀ fs, ∃ rows fs',
      extractLoop w now outDir bd bt force papers fs = (.ok rows, fs') ∧
      rows.map (·.paper_id) = papers.map (·.paper_id) ∧
      (∀ p ∈ papers, ¬ ((w p.paper_id).metadataExists ∧ ¬ force) →
        bothTextCallsFail (w p.paper_id) →
        ∃ r ∈ rows, r.paper_id = p.paper_id ∧ r.status = "processed" ∧
          r.text_extracted = some false) := by
  induction papers with
  | nil =>
    intro fs
    exact ⟨[], fs, rfl, rfl, by simp⟩
  | cons p rest ih =>
    intro fs
    obtain ⟨row, fs1, hpp, hid, -, hproc⟩ := processPaper_no_timeout
      (w p.paper_id) now outDir bd bt force p fs (hc p.paper_id)
      (hnt p.paper_id)
    obtain ⟨rows, fs2, hloop, hmap, hmem⟩ := ih fs1
    refine ⟨row :: rows, fs2, ?_, ?_, ?_⟩
    · rw [extractLoop, hpp]
      simp only
      rw [hloop]
    · simp [hid, hmap]
    · intro q hq hns hbf
      rcases List.mem_cons.mp hq with rfl | hq'
      · exact ⟨row, List.mem_cons_self _ _, hid, (hproc hns).1,
          (hproc hns).2 hbf⟩
      · obtain ⟨r, hr, h1, h2, h3⟩ := hmem q hq' hns hbf
        exact ⟨r, List.mem_cons_of_mem _ hr, h1, h2, h3⟩

/-- Counterexample to C4 as stated: an external-tool timeout on one
paper is fatal for the whole batch — `run_command` does not catch
`subprocess.TimeoutExpired`, so the first paper's timed-out `pdftotext`
call aborts the run before the second paper is touched and before any
artifact or summary is written. -/
theorem C4_timeout_aborts_counterexample :
    (extract_assets c4World "2026-02-11T00:00:00Z" "OUT"
      [exPaperDirect, exPaperStaging] none false).1 =
      .error .timeoutExpired ∧
    (extract_assets c4World "2026-02-11T00:00:00Z" "OUT"
      [exPaperDirect, exPaperStaging] none false).2.summaryWritten = false ∧
    (extract_assets c4World "2026-02-11T00:00:00Z" "OUT"
      [exPaperDirect, exPaperStaging] none false).2.artifactsWritten = [] :=
  ⟨rfl, rfl, rfl⟩

/-- C4 (amended): when no external tool call times out (and staging
copies succeed), a full-text extraction failure reported by exit status
is non-fatal for the batch: the run completes, every paper gets exactly
one summary row in order, the extraction summary is written, and a paper
whose both text attempts fail is recorded with `text_extracted = false`
and status `processed`.  (An actual `TimeoutExpired`, by contrast,
aborts the run — see the counterexample.) -/
theorem C4_exitcode_failure_nonfatal (w : String → PaperWorld)
    (now outDir : String) (papers : List MPaper)
    (risContent : Option String) (force : Bool)
    (hc : ∀ pid, (w pid).copyOk = true)
    (hnt : ∀ pid, noTimeouts (w pid)) :
    ∃ s, (extract_assets w now outDir papers risContent force).1 = .ok s ∧
      s.rows.map (·.paper_id) = papers.map (·.paper_id) ∧
      (extract_assets w now outDir papers risContent force).2.summaryWritten
        = true ∧
      (∀ p ∈ papers, ¬ ((w p.paper_id).metadataExists ∧ ¬ force) →
        bothTextCallsFail (w p.paper_id) →
        ∃ r ∈ s.rows, r.paper_id = p.paper_id ∧ r.status = "processed" ∧
          r.text_extracted = some false) := by
  obtain ⟨rows, fs', hloop, hmap, hmem⟩ := extractLoop_no_timeout w now outDir
    (build_ris_indexes (parse_ris_file risContent)).1
    (build_ris_indexes (parse_ris_file risContent)).2 force papers hc hnt {}
  refine ⟨{ generated_at_utc := now
            total_records := rows.length
            processed_records :=
              (rows.filter (fun r => r.status = "processed")).length
            skipped_records :=
              (rows.filter (fun r => r.status = "skipped")).length
            rows := rows }, ?_, hmap, ?_, hmem⟩
  · rw [extract_assets]
    rw [hloop]
  · rw [extract_assets]
    rw [hloop]

/-- Witness for C4's amended theorem: a two-paper batch in which the
first paper's `pdftotext` fails by exit status on both paths completes
with both papers recorded. -/
theorem C4_exitcode_failure_nonfatal_witness :
    ∃ s, (extract_assets c4WorldFail "2026-02-11T00:00:00Z" "OUT"
        [exPaperStaging, exPaperDirect] none false).1 = .ok s ∧
      s.rows.map (·.paper_id) =
        [exPaperStaging, exPaperDirect].map (·.paper_id) ∧
      (extract_assets c4WorldFail "2026-02-11T00:00:00Z" "OUT"
        [exPaperStaging, exPaperDirect] none false).2.summaryWritten
        = true ∧
      (∀ p ∈ [exPaperStaging, exPaperDirect],
        ¬ ((c4WorldFail p.paper_id).metadataExists ∧ ¬ false) →
        bothTextCallsFail (c4WorldFail p.paper_id) →
        ∃ r ∈ s.rows, r.paper_id = p.paper_id ∧ r.status = "processed" ∧
          r.text_extracted = some false) := by
  apply C4_exitcode_failure_nonfatal
  · intro pid
    by_cases h : pid = "paper_001_C1AAAAAA" <;>
      simp [c4WorldFail, h, exPaperWorldOK]
  · intro pid
    by_cases h : pid = "paper_001_C1AAAAAA" <;>
      simp [c4WorldFail, h, exPaperWorldOK, noTimeouts]

theorem anchorDedup_subset (l : List Anchor) :
    ∀ (seen : List (String × Nat × String)) (a : Anchor),
      a ∈ anchorDedup seen l → a ∈ l := by
  induction l with
  | nil => intro seen a ha; simp [anchorDedup] at ha
  | cons x xs ih =>
    intro seen a ha
    rw [anchorDedup] at ha
    by_cases hk : (x.tag, x.page, pyLower x.quote) ∈ seen
    · rw [if_pos hk] at ha
      exact List.mem_cons_of_mem x (ih seen a ha)
    · rw [if_neg hk] at ha
      rcases List.mem_cons.mp ha with rfl | ha'
      · exact List.mem_cons_self _ _
      · exact List.mem_cons_of_mem x (ih _ a ha')

theorem anchorsOfSents_tag (items : List Sent) (tag : String) :
    ∀ a ∈ anchorsOfSents items tag, a.tag = tag := by
  intro a ha
  rcases List.mem_filterMap.mp ha with ⟨x, -, hfx⟩
  simp only at hfx
  split at hfx
  · exact absurd hfx (by simp)
  · exact congrArg Anchor.tag (Option.some.inj hfx) |>.symm ▸ rfl

theorem anchorsOfEqs_tag (items : List EqCand) :
    ∀ a ∈ anchorsOfEqs items, a.tag = "equation" := by
  intro a ha
  rcases List.mem_filterMap.mp ha with ⟨x, -, hfx⟩
  simp only at hfx
  split at hfx
  · exact absurd hfx (by simp)
  · exact congrArg Anchor.tag (Option.some.inj hfx) |>.symm ▸ rfl

theorem build_evidence_anchors_ne_nil (o m f l : List Sent)
    (eqs : List EqCand) (k : EqCand) (hk : k ∈ eqs)
    (hke : clean_whitespace k.equation ≠ "") :
    build_evidence_anchors o m f l eqs ≠ [] := by
  have he : anchorsOfEqs eqs ≠ [] := by
    intro hnil
    have hm : (⟨"equation", k.page, pyTake (clean_whitespace k.equation)
        280⟩ : Anchor) ∈ anchorsOfEqs eqs :=
      List.mem_filterMap.mpr ⟨k, hk, by simp [hke]⟩
    rw [hnil] at hm
    exact absurd hm (List.not_mem_nil _)
  unfold build_evidence_anchors
  cases hc : anchorsOfSents o "objective" ++ anchorsOfSents m "methods" ++
      anchorsOfSents f "findings" ++ anchorsOfSents l "limitations" ++
      anchorsOfEqs eqs with
  | nil =>
    rcases List.append_eq_nil.mp hc with ⟨-, h2⟩
    exact absurd h2 he
  | cons a rest =>
    simp [anchorDedup]

theorem build_evidence_anchors_tags (o m f l : List Sent)
    (eqs : List EqCand) :
    ∀ a ∈ build_evidence_anchors o m f l eqs, a.tag ≠ "fallback" := by
  intro a ha
  unfold build_evidence_anchors at ha
  have ha2 := anchorDedup_subset _ _ _ (List.mem_of_mem_take ha)
  simp only [List.mem_append] at ha2
  rcases ha2 with (((h | h) | h) | h) | h
  · rw [anchorsOfSents_tag o "objective" a h]; decide
  · rw [anchorsOfSents_tag m "methods" a h]; decide
  · rw [anchorsOfSents_tag f "findings" a h]; decide
  · rw [anchorsOfSents_tag l "limitations" a h]; decide
  · rw [anchorsOfEqs_tag eqs a h]; decide

theorem summarizeOne_props (inp : SummIn) (i : Nat) (p : SPaper)
    (rec : SummaryRecord) (bib : BibEntry)
    (h : summarizeOne inp (i, p) = some (rec, bib))
    (hid : p.paper_id ≠ "")
    (heq : ∀ e ∈ (inp.assets p.paper_id).equations.getD [],
      clean_whitespace e.equation ≠ "") :
    rec.citation ≠ "" ∧ rec.key_equations ≠ [] ∧
      rec.evidence_anchors ≠ [] ∧
      ∀ a ∈ rec.evidence_anchors, a.tag ≠ "fallback" := by
  simp only [summarizeOne] at h
  split at h
  · exact absurd h (by simp)
  · have hpair := Option.some.inj h
    have hrec := congrArg Prod.fst hpair
    simp only at hrec
    -- the key-equation list is nonempty in both branches of its `match`
    have hkeq : (match
        List.take 5 ((inp.assets p.paper_id).equations.getD []) with
        | [] => [fallbackEquation]
        | ks => ks) ≠ [] := by
      cases hX : List.take 5 ((inp.assets p.paper_id).equations.getD []) with
      | nil => simp
      | cons a as => simp
    -- some member of the key-equation list has nonempty cleaned text
    have hkeq2 : ∃ k ∈ (match
        List.take 5 ((inp.assets p.paper_id).equations.getD []) with
        | [] => [fallbackEquation]
        | ks => ks), clean_whitespace k.equation ≠ "" := by
      cases hX : List.take 5 ((inp.assets p.paper_id).equations.getD []) with
      | nil => exact ⟨fallbackEquation, List.mem_singleton_self _, by decide⟩
      | cons a as =>
        refine ⟨a, List.mem_cons_self _ _, ?_⟩
        apply heq
        have ha : a ∈ List.take 5 ((inp.assets p.paper_id).equations.getD [])
          := by
          rw [hX]
          exact List.mem_cons_self _ _
        exact List.mem_of_mem_take ha
    obtain ⟨k, hkmem, hkne⟩ := hkeq2
    rw [← hrec]
    refine ⟨?_, ?_, ?_, ?_⟩
    · -- citation falls through vancouver → title → canonical → paper_id
      simp only
      split
      · assumption
      · split
        · assumption
        · split
          · assumption
          · exact hid
    · simpa using hkeq
    · -- the evidence list is nonempty (in either branch of its `match`)
      simp only
      split
      · simp
      · rename_i hsplit
        exact hsplit
    · -- the fallback branch is unreachable: the anchors built from the
      -- key equations are nonempty, so no "fallback" tag ever appears
      simp only
      split
      · rename_i heqnil
        exact absurd heqnil
          (build_evidence_anchors_ne_nil _ _ _ _ _ k hkmem hkne)
      · intro a ha
        exact build_evidence_anchors_tags _ _ _ _ _ a ha

/-- C10: over pipeline-produced artifacts (nonempty `paper_id`s and
equation candidates with nonempty whitespace-collapsed text, which
`extract_assets` guarantees since candidate lines are cleaned and at
least 8 characters long), every summary record has a nonempty citation
(falling back through `vancouver_citation`, title, canonical file name
and `paper_id`), a nonempty `key_equations` list (the fallback entry is
inserted when no candidates exist), and a nonempty `evidence_anchors`
list with no `"fallback"`-tagged anchor — the replace-empty-evidence
branch is unreachable; consequently the three validation booleans of the
corpus JSON are all true. -/
theorem C10_validation_invariants (inp : SummIn) (t : String)
    (h1 : ∀ p ∈ inp.papers, p.paper_id ≠ "")
    (h2 : ∀ pid : String, ∀ e ∈ (inp.assets pid).equations.getD [],
      clean_whitespace e.equation ≠ "") :
    (∀ s ∈ (summarize_papers inp t).papers,
      s.citation ≠ "" ∧ s.key_equations ≠ [] ∧ s.evidence_anchors ≠ [] ∧
        ∀ a ∈ s.evidence_anchors, a.tag ≠ "fallback") ∧
    (summarize_papers inp t).validation.all_have_citations = true ∧
    (summarize_papers inp t).validation.all_have_evidence = true ∧
    (summarize_papers inp t).validation.all_have_equation_or_fallback
      = true := by
  have hmem : ∀ s ∈ (summarize_papers inp t).papers,
      s.citation ≠ "" ∧ s.key_equations ≠ [] ∧ s.evidence_anchors ≠ [] ∧
        ∀ a ∈ s.evidence_anchors, a.tag ≠ "fallback" := by
    intro s hs
    simp only [summarize_papers] at hs
    rcases List.mem_map.mp hs with ⟨pair, hpair, rfl⟩
    rcases List.mem_filterMap.mp hpair with ⟨it, hit, hsome⟩
    obtain ⟨i, p⟩ := it
    have hp : p ∈ inp.papers := mem_enumFrom_snd _ 1 (i, p) hit
    have hsome' : summarizeOne inp (i, p) = some (pair.1, pair.2) := by
      rw [hsome]
    exact summarizeOne_props inp i p pair.1 pair.2 hsome' (h1 p hp)
      (h2 p.paper_id)
  have hv1 : (summarize_papers inp t).validation.all_have_citations =
      (summarize_papers inp t).papers.all
        (fun item => item.citation != "") := rfl
  have hv2 : (summarize_papers inp t).validation.all_have_evidence =
      (summarize_papers inp t).papers.all
        (fun item => 0 < item.evidence_anchors.length) := rfl
  have hv3 : (summarize_papers inp t).validation.all_have_equation_or_fallback
      = (summarize_papers inp t).papers.all
        (fun item => 0 < item.key_equations.length) := rfl
  refine ⟨hmem, ?_, ?_, ?_⟩
  · rw [hv1]
    apply List.all_eq_true.mpr
    intro s hs
    simpa using (hmem s hs).1
  · rw [hv2]
    apply List.all_eq_true.mpr
    intro s hs
    simpa using List.length_pos.mpr (hmem s hs).2.2.1
  · rw [hv3]
    apply List.all_eq_true.mpr
    intro s hs
    simpa using List.length_pos.mpr (hmem s hs).2.1

/-- A one-paper summarizer input whose metadata file exists but whose
metadata fields are all empty. -/
def c10In : SummIn :=
  { manifest_path := "m", assets_dir := "a"
    source_total_files := some 3, source_unique_files := some 2
    papers := [⟨"paper_001_C1AAAAAA", "a.pdf", ["a.pdf"], 1⟩]
    assets := fun _ =>
      { metadataExists := true, metadata := default, textContent := none
        equations := none, figures := none } }

/-- Witness for C10 on a concrete one-paper corpus. -/
theorem C10_validation_invariants_witness :
    (∀ s ∈ (summarize_papers c10In "2026-02-11T00:00:00Z").papers,
      s.citation ≠ "" ∧ s.key_equations ≠ [] ∧ s.evidence_anchors ≠ [] ∧
        ∀ a ∈ s.evidence_anchors, a.tag ≠ "fallback") ∧
    (summarize_papers c10In
      "2026-02-11T00:00:00Z").validation.all_have_citations = true ∧
    (summarize_papers c10In
      "2026-02-11T00:00:00Z").validation.all_have_evidence = true ∧
    (summarize_papers c10In
      "2026-02-11T00:00:00Z").validation.all_have_equation_or_fallback
      = true := by
  apply C10_validation_invariants
  · intro p hp
    rcases List.mem_singleton.mp hp with rfl
    decide
  · intro pid e he
    simp [c10In] at he

/-- Witness for C9: 250 blocks with an always-succeeding endpoint give
exactly three requests of sizes 100, 100 and 50. -/
theorem C9_append_chunking_witness :
    (append_blocks (List.range 250) (fun _ => 200)).2.map (·.chunk_size) =
      [100, 100, 50] := by
  have hresp : ∀ i : Nat, (fun _ : Nat => 200) i < 300 := by
    intro i
    show (200 : Nat) < 300
    decide
  have h := C9_append_chunking.2.1 (List.range 250) (fun _ => 200) hresp
  rw [h.2.1, C9_append_chunking.2.2]

end PipelineModel
